import Mathlib

/-
Shallow embedding of the korg-tools repository core (Python) in Lean 4.

Modelled source files:
  src/parsers/pcm_parser.py        (PCMParser)
  src/parsers/kmp_parser.py        (KMPParser)
  src/parsers/ksf_parser.py        (KSFParser, KSF1 branch)
  src/parsers/sample_classifier.py (classify_sample and pattern tables)
  src/parsers/set_parser.py        (SetParser._link_samples)
  src/models/korg_types.py         (SampleInfo, KeyZone, Multisample,
                                    Multisample.get_sample_for_note)
  src/export/sf2_writer.py         (SF2Writer record building, export entry)

Python byte strings are modelled by the Bytes structure below: a length
together with an index function.  Reads that can raise in Python
(element indexing, struct.unpack on a slice of the wrong length) are
modelled by Option-returning combinators; Python slicing, which clamps
and never raises, is total.  Sample names do not influence any claim;
they are modelled by the SampleName type, which records where a name
came from without rendering the final string.
-/

/-- Python bytes value: a length together with the byte at each index
below the length (indices at or above the length are never read by the
checked combinators). -/
structure Bytes where
  size : Nat
  get : Nat → Nat

/-- Python slice `b[lo:hi]` for nonnegative bounds: clamps both bounds to
the length and never fails. -/
def Bytes.slice (b : Bytes) (lo hi : Nat) : Bytes :=
  { size := min hi b.size - min lo b.size
    get := fun i => b.get (min lo b.size + i) }

/-- Python slice `b[lo:]`. -/
def Bytes.sliceFrom (b : Bytes) (lo : Nat) : Bytes :=
  b.slice lo b.size

/-- Python element indexing `b[i]`: raises (none) when out of range. -/
def Bytes.at? (b : Bytes) (i : Nat) : Option Nat :=
  if i < b.size then some (b.get i) else none

/-- struct.unpack of a big-endian u32 from `b[pos:pos+4]`: Python raises
unless the (clamped) slice holds exactly 4 bytes. -/
def readBE32? (b : Bytes) (pos : Nat) : Option Nat :=
  if pos + 4 ≤ b.size then
    some (b.get pos * 0x1000000 + b.get (pos+1) * 0x10000 +
          b.get (pos+2) * 0x100 + b.get (pos+3))
  else none

/-- struct.unpack of a big-endian u16 from `b[pos:pos+2]`. -/
def readBE16? (b : Bytes) (pos : Nat) : Option Nat :=
  if pos + 2 ≤ b.size then some (b.get pos * 0x100 + b.get (pos+1))
  else none

/-- struct.unpack of a little-endian u32 from `b[pos:pos+4]`. -/
def readLE32? (b : Bytes) (pos : Nat) : Option Nat :=
  if pos + 4 ≤ b.size then
    some (b.get (pos+3) * 0x1000000 + b.get (pos+2) * 0x10000 +
          b.get (pos+1) * 0x100 + b.get pos)
  else none

/-- struct.unpack of a little-endian u16 from `b[pos:pos+2]`. -/
def readLE16? (b : Bytes) (pos : Nat) : Option Nat :=
  if pos + 2 ≤ b.size then some (b.get (pos+1) * 0x100 + b.get pos)
  else none

/-- Two-complement reading of an 8-bit value as a signed integer
(struct.unpack of format b). -/
def toSigned8 (v : Nat) : Int :=
  if v < 128 then (v : Int) else (v : Int) - 256

/-- Two-complement reading of a 16-bit value as a signed integer
(struct.unpack of format h). -/
def toSigned16 (v : Nat) : Int :=
  if v < 32768 then (v : Int) else (v : Int) - 65536

/-- Whether the byte pattern `t` occurs in `b` starting at index `i`. -/
def Bytes.matchesAt (b : Bytes) (t : List Nat) (i : Nat) : Bool :=
  decide (i + t.length ≤ b.size) &&
  (List.range t.length).all (fun j => decide (b.get (i + j) = t.getD j 0))

/-- Python bytes.rfind of a pattern: the greatest index at which the
pattern occurs, none when absent (Python returns -1). -/
def Bytes.rfindTag (b : Bytes) (t : List Nat) : Option Nat :=
  (((List.range (b.size + 1)).filter (fun i => b.matchesAt t i)).max?)

/-- Python bytes.find of a pattern from the start: least matching index. -/
def Bytes.findTag (b : Bytes) (t : List Nat) : Option Nat :=
  ((List.range (b.size + 1)).find? (fun i => b.matchesAt t i))

/-- Python bytes.find of a single byte value within `[lo, hi)`
(bytes.find with start and stop arguments). -/
def Bytes.findByteIn (b : Bytes) (v lo hi : Nat) : Option Nat :=
  ((List.range (min hi b.size)).find? (fun i => decide (lo ≤ i) && decide (b.get i = v)))

/-- The byte values of the ASCII tag KBEG. -/
def tagKBEG : List Nat := [0x4B, 0x42, 0x45, 0x47]

/-- The byte values of the ASCII tag KEND. -/
def tagKEND : List Nat := [0x4B, 0x45, 0x4E, 0x44]

/-- The byte values of the ASCII tag KORF. -/
def tagKORF : List Nat := [0x4B, 0x4F, 0x52, 0x46]

/-- Turn a Bytes value into the list of its byte values. -/
def Bytes.toList (b : Bytes) : List Nat :=
  (List.range b.size).map b.get

/-- LoopMode enum from korg_types.py. -/
inductive LoopMode where
  | NO_LOOP
  | FORWARD
  | BIDIRECTIONAL
  | REVERSE
deriving DecidableEq

/-- LoopMode(n) conversion used by the KSF decoder (applied to min n 3). -/
def LoopMode.fromNat (n : Nat) : LoopMode :=
  match n with
  | 0 => .NO_LOOP
  | 1 => .FORWARD
  | 2 => .BIDIRECTIONAL
  | _ => .REVERSE

/-- SampleType enum from korg_types.py (the role assigned by the
classifier: UNKNOWN / DRUMKIT / MELODIC / ONESHOT). -/
inductive SampleType where
  | UNKNOWN
  | DRUMKIT
  | MELODIC
  | ONESHOT
deriving DecidableEq

/-- Provenance of a sample or multisample name.  The final rendered
string never influences decoding decisions, so the model records where
the name came from instead of formatting it: the name argument handed to
the parser, raw bytes decoded from a name table (after stripping
spaces), or the synthesized fallback containing the sample index. -/
inductive SampleName where
  | given : SampleName
  | fromTable : List Nat → SampleName
  | synthesized : Nat → SampleName

/-- SampleInfo from korg_types.py, with the fields the claims reference.
Defaults mirror the dataclass defaults.  raw_data is none for a Python
None payload and some b for a bytes payload (possibly empty). -/
structure SampleInfo where
  name : SampleName := .given
  sample_rate : Nat := 44100
  bit_depth : Nat := 16
  channels : Nat := 1
  num_samples : Nat := 0
  loop_start : Nat := 0
  loop_end : Nat := 0
  loop_mode : LoopMode := .NO_LOOP
  root_key : Nat := 60
  fine_tune : Int := 0
  data_offset : Nat := 0
  data_size : Nat := 0
  raw_data : Option Bytes := none
  sample_type : SampleType := .UNKNOWN
  detected_note : String := ""
  detected_octave : Int := -1

/-- KeyZone from korg_types.py. -/
structure KeyZone where
  low_key : Nat := 0
  high_key : Nat := 127
  low_velocity : Nat := 0
  high_velocity : Nat := 127
  sample_index : Nat := 0
  root_key : Nat := 60
  fine_tune : Int := 0
  level : Nat := 127
  pan : Nat := 64

/-- Multisample from korg_types.py (name provenance as in SampleName). -/
structure Multisample where
  name : SampleName := .given
  zones : List KeyZone := []
  samples : List SampleInfo := []

/-- SetPackage from korg_types.py, restricted to the two fields the
linking pass reads and writes. -/
structure SetPackage where
  samples : List SampleInfo := []
  multisamples : List Multisample := []

/-- The key and velocity containment test inside
Multisample.get_sample_for_note. -/
def zoneContains (z : KeyZone) (note velocity : Nat) : Bool :=
  decide (z.low_key ≤ note) && decide (note ≤ z.high_key) &&
  decide (z.low_velocity ≤ velocity) && decide (velocity ≤ z.high_velocity)

/-- The zone loop of Multisample.get_sample_for_note: the first zone
containing (note, velocity) whose sample_index is within samples returns
that sample; a containing zone with an out-of-range index falls through
to the remaining zones. -/
def getSampleLoop (samples : List SampleInfo) (zones : List KeyZone)
    (note velocity : Nat) : Option SampleInfo :=
  match zones with
  | [] => none
  | z :: rest =>
    if zoneContains z note velocity then
      if h : z.sample_index < samples.length then
        some (samples.get ⟨z.sample_index, h⟩)
      else getSampleLoop samples rest note velocity
    else getSampleLoop samples rest note velocity

/-- Multisample.get_sample_for_note from korg_types.py. -/
def Multisample.get_sample_for_note (ms : Multisample) (note velocity : Nat) :
    Option SampleInfo :=
  getSampleLoop ms.samples ms.zones note velocity

/-- One iteration of the zone loop of SetParser._link_samples: when the
zone index resolves within the package samples and the multisample list
is still shorter than the index bound check, append the package sample. -/
def linkZoneStep (pkgSamples : List SampleInfo) (acc : List SampleInfo)
    (z : KeyZone) : List SampleInfo :=
  if h : z.sample_index < pkgSamples.length then
    if z.sample_index < acc.length then acc
    else acc ++ [pkgSamples.get ⟨z.sample_index, h⟩]
  else acc

/-- The per-multisample body of SetParser._link_samples. -/
def linkMultisample (pkgSamples : List SampleInfo) (ms : Multisample) :
    Multisample :=
  { ms with samples := ms.zones.foldl (linkZoneStep pkgSamples) ms.samples }

/-- SetParser._link_samples from set_parser.py. -/
def SetParser.link_samples (pkg : SetPackage) : SetPackage :=
  { pkg with multisamples := pkg.multisamples.map (linkMultisample pkg.samples) }

namespace PCMParser

/-- PCMParser.default_sample_rate (48 kHz). -/
def default_sample_rate : Nat := 48000

/-- SAMPLE_HEADER_SIZE = 0x4C: the fixed per-sample header size. -/
def SAMPLE_HEADER_SIZE : Nat := 76

/-- PCMParser._swap_endian: big-endian 16-bit samples to little-endian.
Buffers of fewer than 2 bytes are returned unchanged; an odd trailing
byte is dropped; then every byte pair is swapped. -/
def swap_endian (b : Bytes) : Bytes :=
  if b.size < 2 then b
  else
    { size := b.size - b.size % 2
      get := fun i => if i % 2 = 0 then b.get (i + 1) else b.get (i - 1) }

/-- Strip of leading and trailing spaces (str.strip on a run of
printable ASCII, where the only whitespace byte value is 32). -/
def stripSpaces (l : List Nat) : List Nat :=
  ((l.dropWhile (fun c => c = 32)).reverse.dropWhile (fun c => c = 32)).reverse

/-- Python dict assignment names[k] = v: overwrite in place or append. -/
def namesInsert (m : List (Nat × List Nat)) (k : Nat) (v : List Nat) :
    List (Nat × List Nat) :=
  if m.any (fun p => p.1 = k) then
    m.map (fun p => if p.1 = k then (k, v) else p)
  else m ++ [(k, v)]

/-- Python dict lookup names.get(k). -/
def namesGet? (m : List (Nat × List Nat)) (k : Nat) : Option (List Nat) :=
  (m.find? (fun p => p.1 = k)).map (fun p => p.2)

/-- The name_end search of _parse_names_format_v1: the first index j
below 16 whose byte is 0 or not printable, else 16.  The 16-byte name
field is always a full slice at the call site, so the single upfront
bound check is equivalent to the per-element indexing of the source. -/
def nameEnd? (nb : Bytes) : Option Nat :=
  if 16 ≤ nb.size then
    some (((List.range 16).find? (fun j =>
      decide (nb.get j = 0) || !(decide (32 ≤ nb.get j) && decide (nb.get j ≤ 126)))).getD 16)
  else none

/-- The starting position computation of _parse_names_format_v1. -/
def v1Start (korf_pos : Nat) : Nat :=
  let pos0 := if korf_pos < 0x24 then 0x24 else korf_pos + 13
  let pos1 := if pos0 % 24 ≠ 0 then ((pos0 / 24) + 1) * 24 else pos0
  if korf_pos < 0x24 then 0x24 else pos1

/-- The entry loop of _parse_names_format_v1 (fixed 24-byte entries up
to offset 0x1000): none models a Python exception, which never occurs
because every read is guarded. -/
def parse_names_v1_loop (data : Bytes) (pos : Nat)
    (names : List (Nat × List Nat)) : Option (List (Nat × List Nat)) :=
  if h : pos < min data.size 0x1000 then
    if data.size < pos + 24 then some names
    else
      match ((data.slice pos (pos + 24)).slice 0 16).at? 0 with
      | none => none
      | some b0 =>
        if (65 ≤ b0 ∧ b0 ≤ 122) ∨ b0 = 32 ∨ (48 ≤ b0 ∧ b0 ≤ 57) then
          match nameEnd? ((data.slice pos (pos + 24)).slice 0 16) with
          | none => none
          | some name_end =>
            if 2 ≤ name_end then
              match (data.slice pos (pos + 24)).at? 20 with
              | none => none
              | some idx =>
                parse_names_v1_loop data (pos + 24) (namesInsert names idx
                  (stripSpaces ((((data.slice pos (pos + 24)).slice 0 16).slice 0
                    name_end).toList)))
            else some names
        else some names
  else some names
termination_by min data.size 0x1000 - pos
decreasing_by simp_wf; omega

/-- _parse_names_format_v1 from pcm_parser.py. -/
def parse_names_format_v1 (data : Bytes) (korf_pos : Nat) :
    Option (List (Nat × List Nat)) :=
  parse_names_v1_loop data (v1Start korf_pos) []

/-- The inner ASCII-run loop of _parse_names_format_v2, returning the
number of characters consumed after position pos (the loop advances
while the byte is printable, at most 20 characters, never past
max_pos; a 0 byte or other non-printable byte stops it). -/
def runDelta (data : Bytes) (maxPos pos delta : Nat) : Option Nat :=
  if pos + delta < maxPos ∧ delta < 20 then
    match data.at? (pos + delta) with
    | none => none
    | some c =>
      if 32 ≤ c ∧ c ≤ 126 then runDelta data maxPos pos (delta + 1)
      else some delta
  else some delta
termination_by 20 - delta
decreasing_by simp_wf; omega

/-- b'Z112' prefix filtered out of scanned names. -/
def bytesZ112 : List Nat := [0x5A, 0x31, 0x31, 0x32]

/-- b'KPM' prefix filtered out of scanned names. -/
def bytesKPM : List Nat := [0x4B, 0x50, 0x4D]

/-- Bytes of the substring v1.0 filtered out of scanned names. -/
def bytesV10 : List Nat := [0x76, 0x31, 0x2E, 0x30]

/-- Bytes of the substring v3.2 filtered out of scanned names. -/
def bytesV32 : List Nat := [0x76, 0x33, 0x2E, 0x32]

/-- Bytes of the substring of two slashes and a space filtered out. -/
def bytesSlashes : List Nat := [0x2F, 0x2F, 0x20]

/-- Bytes of the substring STD filtered out of scanned names. -/
def bytesSTD : List Nat := [0x53, 0x54, 0x44]

/-- Whether t occurs at the start of s (str.startswith). -/
def startsWithBytes (s t : List Nat) : Bool :=
  decide (s.take t.length = t)

/-- Whether t occurs contiguously anywhere in s (Python in operator). -/
def containsSub (s t : List Nat) : Bool :=
  (List.range (s.length + 1)).any (fun i => startsWithBytes (s.drop i) t)

/-- The name filter of _parse_names_format_v2: a non-empty stripped
name that is not a format marker or version string. -/
def v2NameOk (nm : List Nat) : Bool :=
  !(decide (nm = [])) && !(startsWithBytes nm bytesZ112) &&
  !(startsWithBytes nm bytesKPM) && !(containsSub nm bytesV10) &&
  !(containsSub nm bytesV32) && !(containsSub nm bytesSlashes) &&
  !(containsSub nm bytesSTD)

/-- The scan loop of _parse_names_format_v2 over the header area. -/
def parse_names_v2_loop (data : Bytes) (maxPos pos idx : Nat)
    (names : List (Nat × List Nat)) : Option (List (Nat × List Nat)) :=
  if h : pos < maxPos then
    match data.at? pos with
    | none => none
    | some c =>
      if 32 ≤ c ∧ c ≤ 126 then
        match runDelta data maxPos pos 0 with
        | none => none
        | some d =>
          if 3 ≤ d ∧ d ≤ 16 then
            if v2NameOk (stripSpaces ((data.slice pos (pos + d)).toList)) then
              parse_names_v2_loop data maxPos (pos + d + 1) (idx + 1)
                (namesInsert names idx (stripSpaces ((data.slice pos (pos + d)).toList)))
            else parse_names_v2_loop data maxPos (pos + d + 1) idx names
          else parse_names_v2_loop data maxPos (pos + d + 1) idx names
      else parse_names_v2_loop data maxPos (pos + 1) idx names
  else some names
termination_by maxPos - pos
decreasing_by all_goals simp_wf; omega

/-- _parse_names_format_v2 from pcm_parser.py: scan from 0x24 up to at
most 0x8000 for printable ASCII runs that pass the name filter. -/
def parse_names_format_v2 (data : Bytes) : Option (List (Nat × List Nat)) :=
  parse_names_v2_loop data (min data.size 0x8000) 0x24 0 []

/-- _parse_sample_names from pcm_parser.py: try the fixed 24-byte-entry
format first, then the scanned variable format, else no names. -/
def parse_sample_names (data : Bytes) : Option (List (Nat × List Nat)) :=
  match data.findTag tagKORF with
  | none => some []
  | some korf_pos =>
    match parse_names_format_v1 data korf_pos with
    | none => none
    | some n1 =>
      if n1 ≠ [] then some n1
      else
        match parse_names_format_v2 data with
        | none => none
        | some n2 => if n2 ≠ [] then some n2 else some []

/-- The effective footer end used by _parse_offset_table: the KEND
position when it lies strictly past KBEG, else the buffer length
(Python compares the rfind result, -1 when absent, against kbeg_pos). -/
def effKend (data : Bytes) (kbeg : Nat) (kendRes : Option Nat) : Nat :=
  match kendRes with
  | some k => if k ≤ kbeg then data.size else k
  | none => data.size

/-- The body of the value scan of _parse_offset_table, recursing on the
exact number of remaining loop iterations (the loop advances pos by 4
while pos < kend - 3, so the count below is forced; structural recursion
keeps the definition kernel-reducible). -/
def offsetScanGo (data : Bytes) (kbeg : Nat) : Nat → Nat → Option (List Nat)
  | 0, _pos => some []
  | n + 1, pos =>
    match readBE32? data pos with
    | none => none
    | some v =>
      match offsetScanGo data kbeg n (pos + 4) with
      | none => none
      | some rest =>
        some (if 0x40 < v ∧ v < kbeg then v :: rest else rest)

/-- The value scan of _parse_offset_table: big-endian 32-bit words from
pos while pos < kend - 3, keeping the values strictly between 0x40 and
the KBEG position, in table order. -/
def offsetScan (data : Bytes) (kbeg kendE pos : Nat) : Option (List Nat) :=
  offsetScanGo data kbeg ((kendE - 3 - pos + 3) / 4) pos

/-- _parse_offset_table from pcm_parser.py: peek at the first two words
after KBEG; when the second looks like a plausible offset, skip the
first word as a count or header field; then scan the remaining words. -/
def parse_offset_table (data : Bytes) (kbeg : Nat) (kendRes : Option Nat) :
    Option (List Nat) :=
  if kbeg + 4 + 8 ≤ data.size then
    match readBE32? data (kbeg + 4), readBE32? data (kbeg + 4 + 4) with
    | some _first_val, some second_val =>
      if 0x40 < second_val ∧ second_val < kbeg then
        offsetScan data kbeg (effKend data kbeg kendRes) (kbeg + 4 + 4)
      else offsetScan data kbeg (effKend data kbeg kendRes) (kbeg + 4)
    | _, _ => none
  else offsetScan data kbeg (effKend data kbeg kendRes) (kbeg + 4)

/-- The SampleInfo built for one block of the extraction loop of
PCMParser.parse (audio bytes after the 76-byte header, byte-swapped). -/
def mkPCMSample (data : Bytes) (names : List (Nat × List Nat))
    (i b0 b1 sample_rate : Nat) : SampleInfo :=
  let audio := swap_endian (data.slice (b0 + SAMPLE_HEADER_SIZE) b1)
  { name := match namesGet? names i with
            | some nm => .fromTable nm
            | none => .synthesized i
    sample_rate := sample_rate
    bit_depth := 16
    channels := 1
    num_samples := audio.size / 2
    loop_mode := .NO_LOOP
    root_key := 60
    data_offset := b0 + SAMPLE_HEADER_SIZE
    data_size := audio.size
    raw_data := some audio }

/-- The per-block extraction loop of PCMParser.parse over adjacent
boundary pairs: blocks not larger than the header, or starting past the
buffer end, are skipped; otherwise the sample rate is the big-endian
16-bit field at offset 20 of the per-sample header (defaulting when the
header slice is short or the field is zero). -/
def extractLoop (data : Bytes) (names : List (Nat × List Nat))
    (bs : List Nat) (i : Nat) : Option (List SampleInfo) :=
  match bs with
  | [] => some []
  | [_] => some []
  | b0 :: b1 :: rest =>
    if b1 ≤ b0 + SAMPLE_HEADER_SIZE ∨ data.size ≤ b0 then
      extractLoop data names (b1 :: rest) (i + 1)
    else
      let header := data.slice b0 (b0 + SAMPLE_HEADER_SIZE)
      if 22 ≤ header.size then
        match readBE16? header 20 with
        | none => none
        | some sr =>
          let sample_rate := if sr = 0 then default_sample_rate else sr
          match extractLoop data names (b1 :: rest) (i + 1) with
          | none => none
          | some l => some (mkPCMSample data names i b0 b1 sample_rate :: l)
      else
        match extractLoop data names (b1 :: rest) (i + 1) with
        | none => none
        | some l =>
          some (mkPCMSample data names i b0 b1 default_sample_rate :: l)

/-- The probe loop of _parse_legacy_format: the first candidate offset
whose 100-byte window holds a 16-bit sample of magnitude above 1000. -/
def probeAudioStart (data : Bytes) (cands : List Nat) : Option Nat :=
  match cands with
  | [] => some 0x1000
  | off :: rest =>
    if off + 100 < data.size then
      if (data.slice off (off + 100)).size = 100 then
        if 1000 < ((((List.range 50).map (fun k =>
              toSigned16 ((data.slice off (off + 100)).get (2*k+1) * 0x100 +
                (data.slice off (off + 100)).get (2*k)))).map Int.natAbs).foldl max 0) then
          some off
        else probeAudioStart data rest
      else none
    else probeAudioStart data rest

/-- _parse_legacy_format from pcm_parser.py: without KORF nothing is
produced; otherwise everything from the probed audio start to the end
of the buffer becomes one best-effort sample when longer than 1000
bytes.  The name is the filename with the extension removed, a derived
given name. -/
def parse_legacy_format (data : Bytes) : Option (List SampleInfo) :=
  match data.findTag tagKORF with
  | none => some []
  | some _korf_pos =>
    match probeAudioStart data [0x100, 0x200, 0x400, 0x800, 0x1000] with
    | none => none
    | some audio_start =>
      let audio := data.sliceFrom audio_start
      if 1000 < audio.size then
        some [{ name := .given
                sample_rate := default_sample_rate
                bit_depth := 16
                channels := 1
                num_samples := audio.size / 2
                data_offset := audio_start
                data_size := audio.size
                raw_data := some audio }]
      else some []

/-- PCMParser.parse from pcm_parser.py: buffers shorter than 256 bytes
yield no samples; without a KBEG marker the legacy fallback runs;
otherwise names, the footer offset table and the per-block extraction
produce the sample list (boundaries are the offsets plus the KBEG
position). -/
def parse (data : Bytes) : Option (List SampleInfo) :=
  if data.size < 256 then some []
  else
    match data.rfindTag tagKBEG with
    | none => parse_legacy_format data
    | some kbeg =>
      match parse_sample_names data with
      | none => none
      | some names =>
        match parse_offset_table data kbeg (data.rfindTag tagKEND) with
        | none => none
        | some offs =>
          if offs = [] then some []
          else extractLoop data names (offs ++ [kbeg]) 0

end PCMParser

namespace KMPParser

/-- The KMP signatures KMP1, MSP1, kmp1 as byte quadruples. -/
def SIGNATURES : List (List Nat) :=
  [[0x4B, 0x4D, 0x50, 0x31], [0x4D, 0x53, 0x50, 0x31], [0x6B, 0x6D, 0x70, 0x31]]

/-- Byte values stripped by Python str.strip (ASCII whitespace). -/
def isPyWhitespace (c : Nat) : Bool :=
  decide (c = 32) || decide (9 ≤ c ∧ c ≤ 13) || decide (28 ≤ c ∧ c ≤ 31)

/-- str.strip over decoded bytes. -/
def stripPyWhitespace (l : List Nat) : List Nat :=
  ((l.dropWhile isPyWhitespace).reverse.dropWhile isPyWhitespace).reverse

/-- The multisample name extraction of _parse_kmp1_format: ascii bytes
from offset 8 up to the first zero byte found before offset 40, decoded
with errors ignored (bytes of 128 and above dropped) and stripped; an
empty result or a missing or too-early zero byte keeps the name
argument. -/
def kmpName (data : Bytes) : SampleName :=
  match data.findByteIn 0 8 40 with
  | some name_end =>
    if 8 < name_end then
      let nm := stripPyWhitespace
        (((data.slice 8 name_end).toList).filter (fun c => decide (c < 128)))
      if nm ≠ [] then .fromTable nm else .given
    else .given
  | none => .given

/-- One zone record of _parse_zones at position pos: none models the
per-zone try/except setting valid to False (an out-of-range read or a
failed key validation both abandon the current record-size attempt).
An out-of-range root key is clamped to the key-range midpoint. -/
def parseZoneAt (data : Bytes) (pos zone_size i : Nat) : Option KeyZone := do
  let low_key ← data.at? pos
  let high_key ← data.at? (pos + 1)
  let root0 ← data.at? (pos + 2)
  let ftv ← data.at? (pos + 3)
  let low_vel ← if 4 < zone_size then data.at? (pos + 4) else some 0
  let high_vel ← if 5 < zone_size then data.at? (pos + 5) else some 127
  let sample_idx ← if 7 < zone_size then readLE16? data (pos + 6) else some i
  let level ← if 8 < zone_size then data.at? (pos + 8) else some 127
  let pan ← if 9 < zone_size then data.at? (pos + 9) else some 64
  if 127 < low_key ∨ 127 < high_key ∨ high_key < low_key then none
  else
    some { low_key := low_key
           high_key := high_key
           low_velocity := low_vel
           high_velocity := high_vel
           sample_index := sample_idx
           root_key := if 127 < root0 then (low_key + high_key) / 2 else root0
           fine_tune := toSigned8 ftv
           level := level
           pan := pan }

/-- The per-zone loop of _parse_zones for one candidate record size:
all num_zones records must validate. -/
def parseZonesGo (data : Bytes) (offset zone_size : Nat) :
    Nat → Nat → Option (List KeyZone)
  | 0, _i => some []
  | n + 1, i => do
    let z ← parseZoneAt data (offset + i * zone_size) zone_size i
    let rest ← parseZonesGo data offset zone_size n (i + 1)
    pure (z :: rest)

/-- The record-size loop of _parse_zones: sizes whose total would
overrun the buffer are skipped; the first size yielding a valid
non-empty zone list wins; otherwise no zones. -/
def parseZonesTry (data : Bytes) (offset n : Nat) :
    List Nat → List KeyZone
  | [] => []
  | zone_size :: sizes =>
    if data.size < offset + n * zone_size then
      parseZonesTry data offset n sizes
    else
      match parseZonesGo data offset zone_size n 0 with
      | some zs =>
        if zs.isEmpty then parseZonesTry data offset n sizes else zs
      | none => parseZonesTry data offset n sizes

/-- _parse_zones from kmp_parser.py with its candidate record sizes. -/
def parse_zones (data : Bytes) (offset n : Nat) : List KeyZone :=
  parseZonesTry data offset n [16, 20, 24, 32]

/-- The zone-count hypothesis loop of _parse_kmp1_format: candidate
header offsets 32, 40, 48; a plausible little-endian count between 1
and 128 is decoded into zones; the first hypothesis yielding a
non-empty zone list is accepted.  The count read is guarded, so the
unreachable read-failure branch simply falls through. -/
def tryZoneOffsets (data : Bytes) : List Nat → List KeyZone
  | [] => []
  | zo :: rest =>
    if zo + 2 ≤ data.size then
      match readLE16? data zo with
      | some n =>
        if 1 ≤ n ∧ n ≤ 128 then
          let zs := parse_zones data (zo + 2) n
          if zs.isEmpty then tryZoneOffsets data rest else zs
        else tryZoneOffsets data rest
      | none => tryZoneOffsets data rest
    else tryZoneOffsets data rest

/-- The default single full-keyboard zone emitted when no hypothesis
validates. -/
def defaultZone : KeyZone :=
  { low_key := 0, high_key := 127, low_velocity := 0, high_velocity := 127
    sample_index := 0, root_key := 60 }

/-- The zone list the KMP1 branch tries before falling back. -/
def triedZones (data : Bytes) : List KeyZone :=
  tryZoneOffsets data [32, 40, 48]

/-- _parse_kmp1_format from kmp_parser.py: none models the outer
try/except returning None (only a failed version read could reach it,
and the 32-byte minimum makes that impossible). -/
def parse_kmp1_format (data : Bytes) : Option Multisample :=
  match readLE32? data 4 with
  | none => none
  | some _version =>
    let zones := triedZones data
    some { name := kmpName data
           zones := if zones.isEmpty then [defaultZone] else zones
           samples := [] }

/-- _parse_generic_format from kmp_parser.py: a single full-keyboard
default zone under the name argument. -/
def parse_generic_format : Multisample :=
  { name := .given, zones := [defaultZone], samples := [] }

/-- KMPParser.parse from kmp_parser.py: buffers shorter than 32 bytes
yield None; a recognized signature selects the KMP1 branch, anything
else the generic fallback. -/
def parse (data : Bytes) : Option Multisample :=
  if data.size < 32 then none
  else if SIGNATURES.contains (data.slice 0 4).toList then
    parse_kmp1_format data
  else some parse_generic_format

end KMPParser

namespace KSFParser

/-- _validate_sample_params from ksf_parser.py. -/
def validate_sample_params (sample_rate bit_depth channels : Nat) : Bool :=
  !(decide (sample_rate < 8000) || decide (192000 < sample_rate)) &&
  (decide (bit_depth = 8) || decide (bit_depth = 16) ||
   decide (bit_depth = 24) || decide (bit_depth = 32)) &&
  !(decide (channels < 1) || decide (8 < channels))

/-- _find_audio_data_offset from ksf_parser.py: the first of 64, 128,
256 and min_offset lying strictly inside the buffer, else min_offset. -/
def find_audio_data_offset (data : Bytes) (min_offset : Nat) : Nat :=
  (([64, 128, 256, min_offset].find? (fun off => decide (off < data.size))).getD
    min_offset)

/-- _calc_num_samples from ksf_parser.py. -/
def calc_num_samples (data_size bit_depth channels : Nat) : Nat :=
  let bytes_per_sample := (bit_depth / 8) * channels
  if 0 < bytes_per_sample then data_size / bytes_per_sample else 0

/-- _parse_ksf1_format from ksf_parser.py, on the path where the header
reads succeed and _validate_sample_params accepts them: the returned
SampleInfo takes its frame count from the header field at offset 16
whenever that is positive, while the payload is everything after the
probed data offset.  none covers the paths on which the source falls
back to _parse_generic_format (a failed read caught by the surrounding
try, or a failed validation); that fallback classifies audio with
floating-point statistics and is outside this model. -/
def parse_ksf1_format (data : Bytes) : Option SampleInfo := do
  let sample_rate ← readLE32? data 8
  let bit_depth ← readLE16? data 12
  let channels ← readLE16? data 14
  let num_samples ← readLE32? data 16
  let loop_start ← readLE32? data 20
  let loop_end ← readLE32? data 24
  let loop_mode := if 28 < data.size then data.get 28 else 0
  let root_key := if 29 < data.size then data.get 29 else 60
  let fine_tune ← if 31 < data.size then (readLE16? data 30).map toSigned16
                  else some 0
  if validate_sample_params sample_rate bit_depth channels then
    let data_offset := find_audio_data_offset data 32
    let data_size := data.size - data_offset
    some { name := .given
           sample_rate := sample_rate
           bit_depth := bit_depth
           channels := channels
           num_samples := if 0 < num_samples then num_samples
                          else calc_num_samples data_size bit_depth channels
           loop_start := loop_start
           loop_end := if 0 < loop_end then loop_end else num_samples
           loop_mode := LoopMode.fromNat (min loop_mode 3)
           root_key := root_key
           fine_tune := fine_tune
           data_offset := data_offset
           data_size := data_size
           raw_data := some (data.sliceFrom data_offset) }
  else none

/-- The dispatch condition of KSFParser.parse selecting the KSF1
branch: at least 44 bytes and a KSF1 or kSF1 signature. -/
def selectsKSF1 (data : Bytes) : Bool :=
  decide (44 ≤ data.size) &&
  ((decide ((data.slice 0 4).toList = [0x4B, 0x53, 0x46, 0x31])) ||
   (decide ((data.slice 0 4).toList = [0x6B, 0x53, 0x46, 0x31])))

end KSFParser

namespace SF2Writer

/-- Concatenation of two Python bytes values. -/
def bytesAppend (a b : Bytes) : Bytes :=
  { size := a.size + b.size
    get := fun i => if i < a.size then a.get i else b.get (i - a.size) }

/-- The 46 zero samples (92 zero bytes) of padding appended to every
sample payload, mandated by the target format. -/
def zeroPad92 : Bytes := { size := 92, get := fun _ => 0 }

/-- SF2Sample from sf2_writer.py (the name string is not modelled). -/
structure SF2Sample where
  start : Nat := 0
  end_ : Nat := 0
  loop_start : Nat := 0
  loop_end : Nat := 0
  sample_rate : Nat := 44100
  original_pitch : Nat := 60
  pitch_correction : Int := 0
  sample_link : Nat := 0
  sample_type : Nat := 1
  data : Bytes := { size := 0, get := fun _ => 0 }

/-- One zone dict of SF2Instrument.zones: key range, velocity range,
sample reference and the custom generator dict in insertion order (the
export path only ever stores plain integer amounts). -/
structure SF2Zone where
  key_range : Nat × Nat
  vel_range : Nat × Nat
  sample_id : Nat
  generators : List (Nat × Int)

/-- SF2Instrument from sf2_writer.py (name not modelled). -/
structure SF2Instrument where
  zones : List SF2Zone

/-- SF2Preset from sf2_writer.py (name not modelled). -/
structure SF2Preset where
  preset_num : Nat := 0
  bank : Nat := 0
  instruments : List Nat := []

/-- The collections held by an SF2Writer instance. -/
structure SF2State where
  samples : List SF2Sample := []
  instruments : List SF2Instrument := []
  presets : List SF2Preset := []

/-- SF2Generator.overridingRootKey. -/
def overridingRootKey : Nat := 58

/-- SF2Generator.keyRange. -/
def genKeyRange : Nat := 43

/-- SF2Generator.velRange : Nat. -/
def genVelRange : Nat := 44

/-- SF2Generator.instrument. -/
def genInstrument : Nat := 41

/-- SF2Generator.sampleID. -/
def genSampleID : Nat := 53

/-- SF2Writer.add_sample applied to the fields create_simple_soundfont
passes (pitch_correction 0): loop bounds default, 46 zero samples of
padding, start and end measured in 16-bit frames. -/
def addSampleRecord (s : SampleInfo) : SF2Sample :=
  let audio := s.raw_data.getD { size := 0, get := fun _ => 0 }
  let num_samples := audio.size / 2
  { start := 0
    end_ := num_samples
    loop_start := if 0 < s.loop_start then s.loop_start else 0
    loop_end := if 0 < s.loop_end then s.loop_end else num_samples
    sample_rate := s.sample_rate
    original_pitch := s.root_key
    pitch_correction := 0
    sample_link := 0
    sample_type := 1
    data := bytesAppend audio zeroPad92 }

/-- The instrument create_simple_soundfont adds for the sample at index
i: one full-range zone referencing the sample, with an
overridingRootKey custom generator. -/
def simpleInstrument (i : Nat) (s : SampleInfo) : SF2Instrument :=
  { zones := [{ key_range := (0, 127)
                vel_range := (0, 127)
                sample_id := i
                generators := [(overridingRootKey, (s.root_key : Int))] }] }

/-- The preset create_simple_soundfont adds for the sample at index i:
preset i mod 128 in bank i div 128 over instrument i. -/
def simplePreset (i : Nat) : SF2Preset :=
  { preset_num := i % 128, bank := i / 128, instruments := [i] }

/-- SF2Writer.create_simple_soundfont from sf2_writer.py: one sample,
one instrument and one preset per entry, in list order. -/
def create_simple_soundfont (samples_data : List SampleInfo) : SF2State :=
  { samples := samples_data.map addSampleRecord
    instruments := samples_data.enum.map (fun p => simpleInstrument p.1 p.2)
    presets := (List.range samples_data.length).map simplePreset }

/-- Python truthiness of SampleInfo.raw_data in export_samples_to_sf2:
a present, non-empty payload. -/
def hasPayload (s : SampleInfo) : Bool :=
  match s.raw_data with
  | some b => decide (0 < b.size)
  | none => false

/-- export_samples_to_sf2 from sf2_writer.py: samples without a truthy
raw payload are dropped; an empty remainder aborts with a failure
result before any bank is built (none); otherwise the writer state is
populated and handed to serialization (some). -/
def export_samples_to_sf2 (samples : List SampleInfo) : Option SF2State :=
  let samples_data := samples.filter hasPayload
  if samples_data.isEmpty then none
  else some (create_simple_soundfont samples_data)

/-- One preset-header record of _build_phdr (names not modelled; the
terminal record is the one the source labels EOP). -/
structure PhdrRecord where
  preset_num : Nat
  bank : Nat
  pbag_idx : Nat

/-- The record list of _build_phdr: each preset header carries the
running bag index, advanced by the instrument count plus one per
preset; the terminal record carries the final running index. -/
def phdrGo : List SF2Preset → Nat → List PhdrRecord
  | [], idx => [{ preset_num := 0, bank := 0, pbag_idx := idx }]
  | p :: rest, idx =>
    { preset_num := p.preset_num, bank := p.bank, pbag_idx := idx } ::
      phdrGo rest (idx + p.instruments.length + 1)

/-- _build_phdr from sf2_writer.py at record granularity. -/
def build_phdr (presets : List SF2Preset) : List PhdrRecord :=
  phdrGo presets 0

/-- The record list of _build_pbag: one (generator index, modulator
index) pair per preset instrument, generators advancing by two, plus
the terminal record. -/
def pbagGo : List SF2Preset → Nat → List (Nat × Nat)
  | [], g => [(g, 0)]
  | p :: rest, g =>
    (List.range p.instruments.length).map (fun k => (g + 2 * k, 0)) ++
      pbagGo rest (g + 2 * p.instruments.length)

/-- _build_pbag from sf2_writer.py at record granularity. -/
def build_pbag (presets : List SF2Preset) : List (Nat × Nat) :=
  pbagGo presets 0

/-- How a generator amount is packed in the source: a 16-bit word, a
low/high byte pair, or a signed 16-bit value. -/
inductive GenAmount where
  | word : Nat → GenAmount
  | range : Nat → Nat → GenAmount
  | signed : Int → GenAmount

/-- One generator record. -/
structure GenRecord where
  oper : Nat
  amount : GenAmount

/-- _build_pgen from sf2_writer.py: per preset instrument a full key
range (packed word 0x7F00) and an instrument reference, then the
terminal record. -/
def build_pgen (presets : List SF2Preset) : List GenRecord :=
  (presets.map (fun p =>
    (p.instruments.map (fun inst_id =>
      [{ oper := genKeyRange, amount := .word 0x7F00 },
       { oper := genInstrument, amount := .word inst_id }])).flatten)).flatten ++
  [{ oper := 0, amount := .word 0 }]

/-- One instrument-header record of _build_inst (the terminal record is
the one the source labels EOI). -/
structure InstRecord where
  ibag_idx : Nat

/-- The record list of _build_inst: the running bag index advances by
the zone count plus one per instrument. -/
def instGo : List SF2Instrument → Nat → List InstRecord
  | [], idx => [{ ibag_idx := idx }]
  | inst :: rest, idx =>
    { ibag_idx := idx } :: instGo rest (idx + inst.zones.length + 1)

/-- _build_inst from sf2_writer.py at record granularity. -/
def build_inst (instruments : List SF2Instrument) : List InstRecord :=
  instGo instruments 0

/-- The zone records of _build_ibag for one instrument: generators
advance by three plus the custom generator count per zone. -/
def ibagZones : List SF2Zone → Nat → List (Nat × Nat) × Nat
  | [], g => ([], g)
  | z :: zs, g =>
    let r := ibagZones zs (g + 3 + z.generators.length)
    ((g, 0) :: r.1, r.2)

/-- The record list of _build_ibag including the terminal record. -/
def ibagGo : List SF2Instrument → Nat → List (Nat × Nat)
  | [], g => [(g, 0)]
  | inst :: rest, g =>
    let r := ibagZones inst.zones g
    r.1 ++ ibagGo rest r.2

/-- _build_ibag from sf2_writer.py at record granularity. -/
def build_ibag (instruments : List SF2Instrument) : List (Nat × Nat) :=
  ibagGo instruments 0

/-- The generator records of _build_igen for one zone: key range,
velocity range, the custom generators in dict order (always plain
signed amounts on the export path), and the mandatory trailing sample
reference. -/
def igenZone (z : SF2Zone) : List GenRecord :=
  { oper := genKeyRange, amount := .range z.key_range.1 z.key_range.2 } ::
  { oper := genVelRange, amount := .range z.vel_range.1 z.vel_range.2 } ::
  (z.generators.map (fun gv => { oper := gv.1, amount := GenAmount.signed gv.2 })) ++
  [{ oper := genSampleID, amount := .word z.sample_id }]

/-- _build_igen from sf2_writer.py at record granularity, including the
terminal record. -/
def build_igen (instruments : List SF2Instrument) : List GenRecord :=
  (instruments.map (fun inst => (inst.zones.map igenZone).flatten)).flatten ++
  [{ oper := 0, amount := .word 0 }]

end SF2Writer

/-
A small matching engine for the Python regular expressions used by
sample_classifier.py.  It supports exactly the constructs those
patterns use: literals, character classes, alternation (leftmost
preference), greedy star (longest first, as Python backtracking), the
word-boundary assertion, anchors, and numbered capturing groups with
last-write-wins spans.  Optional and plus quantifiers are expressed
through alternation and star at pattern construction.  Matching is
continuation-passing with a fuel bound on star unrolling; every starred
element of the source patterns consumes at least one character, so a
fuel of the subject length plus one never runs out.
-/

/-- One item of a character class. -/
inductive CCItem where
  | single : Char → CCItem
  | range : Char → Char → CCItem
  | dig : CCItem
  | spc : CCItem
  | wrd : CCItem

/-- Regular expression abstract syntax. -/
inductive RE where
  | eps : RE
  | ch : Char → RE
  | cls : List CCItem → RE
  | seq : RE → RE → RE
  | alt : RE → RE → RE
  | star : RE → RE
  | grp : Nat → RE → RE
  | bword : RE
  | bos : RE
  | eos : RE

/-- ASCII whitespace characters matched by the Python class \s. -/
def reIsSpaceChar (c : Char) : Bool :=
  c = ' ' || c = '\t' || c = '\n' || c = '\r' ||
  c = Char.ofNat 11 || c = Char.ofNat 12

/-- Word characters of the Python class \w over ASCII subjects. -/
def reIsWordChar (c : Char) : Bool :=
  c.isAlpha || c.isDigit || c = '_'

/-- Membership of a character in one class item, with optional case
folding as under re.IGNORECASE. -/
def ccItemMatch (ci : Bool) (it : CCItem) (c : Char) : Bool :=
  match it with
  | .single x => c = x || (ci && c.toLower = x.toLower)
  | .range lo hi =>
    (decide (lo ≤ c) && decide (c ≤ hi)) ||
    (ci && ((decide (lo ≤ c.toLower) && decide (c.toLower ≤ hi)) ||
            (decide (lo ≤ c.toUpper) && decide (c.toUpper ≤ hi))))
  | .dig => c.isDigit
  | .spc => reIsSpaceChar c
  | .wrd => reIsWordChar c

/-- Captured group spans, most recent first. -/
def Caps := List (Nat × (Nat × Nat))

/-- Record a capture for group n over span [s, e). -/
def capsSet (caps : Caps) (n s e : Nat) : Caps :=
  ((n, (s, e)) :: caps : List (Nat × (Nat × Nat)))

/-- Read the span last captured for group n, none when the group never
participated in the match. -/
def capsGet? (caps : Caps) (n : Nat) : Option (Nat × Nat) :=
  ((caps : List (Nat × (Nat × Nat))).find? (fun p => p.1 = n)).map (fun p => p.2)

/-- Whether a word boundary stands at position pos of the subject. -/
def atWordBoundary (s : List Char) (pos : Nat) : Bool :=
  let prev := match s[pos - 1]? with
    | some c => if pos = 0 then false else reIsWordChar c
    | none => false
  let cur := match s[pos]? with
    | some c => reIsWordChar c
    | none => false
  prev != cur

/-- The backtracking matcher: tries to match re at pos with the given
captures, calling the continuation on success; alternation prefers the
left branch, star the longest expansion, as the Python engine does.
The fuel decreases on every recursive call, keeping the recursion
structural and kernel-reducible; one unit covers one level of pattern
structure or one star unrolling, so the bound chosen by reSearch (the
pattern node count plus the subject length, doubled) never runs out:
every starred element of the source patterns consumes at least one
character, bounding unrollings by the subject length. -/
def reM (s : List Char) (ci : Bool) :
    Nat → RE → Nat → Caps → (Nat → Caps → Option Caps) → Option Caps
  | 0, _, _, _, _ => none
  | fuel + 1, re, pos, caps, k =>
    match re with
    | .eps => k pos caps
    | .ch c =>
      match s[pos]? with
      | some c2 =>
        if c2 = c || (ci && c2.toLower = c.toLower) then k (pos + 1) caps
        else none
      | none => none
    | .cls items =>
      match s[pos]? with
      | some c2 =>
        if items.any (fun it => ccItemMatch ci it c2) then k (pos + 1) caps
        else none
      | none => none
    | .seq a b => reM s ci fuel a pos caps (fun p c => reM s ci fuel b p c k)
    | .alt a b =>
      match reM s ci fuel a pos caps k with
      | some r => some r
      | none => reM s ci fuel b pos caps k
    | .star a =>
      match reM s ci fuel a pos caps
          (fun p c => if p = pos then none else reM s ci fuel (.star a) p c k) with
      | some r => some r
      | none => k pos caps
    | .grp n a => reM s ci fuel a pos caps (fun p c => k p (capsSet c n pos p))
    | .bword => if atWordBoundary s pos then k pos caps else none
    | .bos => if pos = 0 then k pos caps else none
    | .eos => if pos = s.length then k pos caps else none

/-- The node count of a pattern, used for the matching fuel bound. -/
def RE.nodeCount : RE → Nat
  | .eps => 1
  | .ch _ => 1
  | .cls _ => 1
  | .seq a b => 1 + a.nodeCount + b.nodeCount
  | .alt a b => 1 + a.nodeCount + b.nodeCount
  | .star a => 1 + a.nodeCount
  | .grp _ a => 1 + a.nodeCount
  | .bword => 1
  | .bos => 1
  | .eos => 1

/-- The scan of re.search: try each start position from the left, first
success wins. -/
def reSearchAux (re : RE) (ci : Bool) (s : List Char) : List Nat → Option Caps
  | [] => none
  | p :: rest =>
    match reM s ci (2 * (re.nodeCount + s.length + 2)) re p
        ([] : List (Nat × (Nat × Nat))) (fun _ c => some c) with
    | some caps => some caps
    | none => reSearchAux re ci s rest

/-- re.search of a pattern over a subject: some captures when a match
exists anywhere. -/
def reSearch (re : RE) (ci : Bool) (s : List Char) : Option Caps :=
  reSearchAux re ci s (List.range (s.length + 1))

/-- The text of a captured group as characters. -/
def groupStr (s : List Char) (caps : Caps) (n : Nat) : Option (List Char) :=
  (capsGet? caps n).map (fun ab => (s.drop ab.1).take (ab.2 - ab.1))

/-- Concatenation of a literal string. -/
def litChars : List Char → RE
  | [] => .eps
  | c :: cs => .seq (.ch c) (litChars cs)

/-- A literal pattern. -/
def lit (t : String) : RE := litChars t.toList

/-- Left-preferring alternation of a pattern list. -/
def alts : List RE → RE
  | [] => .eps
  | [r] => r
  | r :: rs => .alt r (alts rs)

/-- Greedy option, as the quantifier of one or zero occurrences. -/
def opt (r : RE) : RE := .alt r .eps

/-- Greedy plus, as one occurrence followed by a star. -/
def plusRE (r : RE) : RE := .seq r (.star r)

/-- Concatenation of a pattern list. -/
def cat : List RE → RE
  | [] => .eps
  | [r] => r
  | r :: rs => .seq r (cat rs)

/-- The separator class of space, underscore and hyphen. -/
def ccSep3 : RE := .cls [.spc, .single '_', .single '-']

/-- A single digit. -/
def ccDig : RE := .cls [.dig]

/-- DRUM_PATTERNS from sample_classifier.py, in declaration order; each
entry transliterates one regular expression (shown in the comment). -/
def DRUM_PATTERNS : List RE := [
  -- \b(KICK|kick|Kick)\d*\b
  cat [.bword, .grp 1 (alts [lit ("KICK"), lit ("kick"), lit ("Kick")]), .star ccDig, .bword],
  -- \b(SNARE|snare|Snare)\d*\b
  cat [.bword, .grp 1 (alts [lit ("SNARE"), lit ("snare"), lit ("Snare")]), .star ccDig, .bword],
  -- \bHI[\s\-]?HAT\b
  cat [.bword, lit ("HI"), opt (.cls [.spc, .single '-']), lit ("HAT"), .bword],
  -- \b(HH|hh)(CL|OP|PD)?\b
  cat [.bword, .grp 1 (alts [lit ("HH"), lit ("hh")]),
       opt (.grp 2 (alts [lit ("CL"), lit ("OP"), lit ("PD")])), .bword],
  -- \b(TOM|tom|Tom)[\s_\-]?\d*\b
  cat [.bword, .grp 1 (alts [lit ("TOM"), lit ("tom"), lit ("Tom")]),
       opt ccSep3, .star ccDig, .bword],
  -- \b(CRASH|crash|Crash)\b
  cat [.bword, .grp 1 (alts [lit ("CRASH"), lit ("crash"), lit ("Crash")]), .bword],
  -- \b(RIDE|ride|Ride)\b
  cat [.bword, .grp 1 (alts [lit ("RIDE"), lit ("ride"), lit ("Ride")]), .bword],
  -- \b(CYMBAL|cymbal|CYM|cym)\b
  cat [.bword, .grp 1 (alts [lit ("CYMBAL"), lit ("cymbal"), lit ("CYM"), lit ("cym")]), .bword],
  -- \b(CLAP|clap|Clap)S?\b
  cat [.bword, .grp 1 (alts [lit ("CLAP"), lit ("clap"), lit ("Clap")]), opt (.ch 'S'), .bword],
  -- \b(RIM|rim|Rim)\b
  cat [.bword, .grp 1 (alts [lit ("RIM"), lit ("rim"), lit ("Rim")]), .bword],
  -- \b(FILL|fill|Fill)[\s_\-]?\d*\b
  cat [.bword, .grp 1 (alts [lit ("FILL"), lit ("fill"), lit ("Fill")]),
       opt ccSep3, .star ccDig, .bword],
  -- \b(PERC|perc|Percussion)\b
  cat [.bword, .grp 1 (alts [lit ("PERC"), lit ("perc"), lit ("Percussion")]), .bword],
  -- \bBD[\s_]?\w*\b
  cat [.bword, lit ("BD"), opt (.cls [.spc, .single '_']), .star (.cls [.wrd]), .bword],
  -- \bBass[\s_\-]?[Dd]rum\b
  cat [.bword, lit ("Bass"), opt ccSep3, .cls [.single 'D', .single 'd'], lit ("rum"), .bword],
  -- \bBassdrum\b
  cat [.bword, lit ("Bassdrum"), .bword],
  -- \b(CONGA|conga|Conga)\b
  cat [.bword, .grp 1 (alts [lit ("CONGA"), lit ("conga"), lit ("Conga")]), .bword],
  -- \b(BONGO|bongo|Bongo)\b
  cat [.bword, .grp 1 (alts [lit ("BONGO"), lit ("bongo"), lit ("Bongo")]), .bword],
  -- \b(TIMBAL|timbal|Timbal)\b
  cat [.bword, .grp 1 (alts [lit ("TIMBAL"), lit ("timbal"), lit ("Timbal")]), .bword],
  -- \b(TAMB|tamb|Tambourine)\b
  cat [.bword, .grp 1 (alts [lit ("TAMB"), lit ("tamb"), lit ("Tambourine")]), .bword],
  -- \b(TABLA|tabla)\b
  cat [.bword, .grp 1 (alts [lit ("TABLA"), lit ("tabla")]), .bword],
  -- \b(DARBUKA|darbuka|Darbuka)\b
  cat [.bword, .grp 1 (alts [lit ("DARBUKA"), lit ("darbuka"), lit ("Darbuka")]), .bword],
  -- \b[HD]?(DAULA|daula|Daula)\b
  cat [.bword, opt (.cls [.single 'H', .single 'D']),
       .grp 1 (alts [lit ("DAULA"), lit ("daula"), lit ("Daula")]), .bword],
  -- \b(DOIRA|doira)\b
  cat [.bword, .grp 1 (alts [lit ("DOIRA"), lit ("doira")]), .bword],
  -- \b(DJEMBE|djembe)\b
  cat [.bword, .grp 1 (alts [lit ("DJEMBE"), lit ("djembe")]), .bword],
  -- \b(CLOPOTEI|clopotei)\b
  cat [.bword, .grp 1 (alts [lit ("CLOPOTEI"), lit ("clopotei")]), .bword],
  -- \b(BELL|bell|Bell)s?\b
  cat [.bword, .grp 1 (alts [lit ("BELL"), lit ("bell"), lit ("Bell")]), opt (.ch 's'), .bword],
  -- \b(TRIANGLE|triangle)\b
  cat [.bword, .grp 1 (alts [lit ("TRIANGLE"), lit ("triangle")]), .bword],
  -- \b(COWBELL|cowbell)\b
  cat [.bword, .grp 1 (alts [lit ("COWBELL"), lit ("cowbell")]), .bword],
  -- \b(CHIMES|chimes)\b
  cat [.bword, .grp 1 (alts [lit ("CHIMES"), lit ("chimes")]), .bword],
  -- \b(GONG|gong)\b
  cat [.bword, .grp 1 (alts [lit ("GONG"), lit ("gong")]), .bword],
  -- \bSD\d*\b
  cat [.bword, lit ("SD"), .star ccDig, .bword],
  -- \b(SHAKER|shaker)\b
  cat [.bword, .grp 1 (alts [lit ("SHAKER"), lit ("shaker")]), .bword],
  -- \b(CASTANET|castanet)\b
  cat [.bword, .grp 1 (alts [lit ("CASTANET"), lit ("castanet")]), .bword],
  -- \b(GUIRO|guiro)\b
  cat [.bword, .grp 1 (alts [lit ("GUIRO"), lit ("guiro")]), .bword],
  -- \b(MARACAS|maracas)\b
  cat [.bword, .grp 1 (alts [lit ("MARACAS"), lit ("maracas")]), .bword],
  -- \b(CABASA|cabasa)\b
  cat [.bword, .grp 1 (alts [lit ("CABASA"), lit ("cabasa")]), .bword],
  -- \b(WOODBLOCK|woodblock)\b
  cat [.bword, .grp 1 (alts [lit ("WOODBLOCK"), lit ("woodblock")]), .bword],
  -- \b(CLAVES|claves)\b
  cat [.bword, .grp 1 (alts [lit ("CLAVES"), lit ("claves")]), .bword],
  -- \b(AGOGO|agogo)\b
  cat [.bword, .grp 1 (alts [lit ("AGOGO"), lit ("agogo")]), .bword],
  -- \b(CUICA|cuica)\b
  cat [.bword, .grp 1 (alts [lit ("CUICA"), lit ("cuica")]), .bword],
  -- \b(VIBRASLAP|vibraslap)\b
  cat [.bword, .grp 1 (alts [lit ("VIBRASLAP"), lit ("vibraslap")]), .bword],
  -- \b(WHISTLE|whistle)\b
  cat [.bword, .grp 1 (alts [lit ("WHISTLE"), lit ("whistle")]), .bword],
  -- \b(HIT|hit|Hit)\d*\b
  cat [.bword, .grp 1 (alts [lit ("HIT"), lit ("hit"), lit ("Hit")]), .star ccDig, .bword],
  -- \b(FX|fx|Fx)\d*\b
  cat [.bword, .grp 1 (alts [lit ("FX"), lit ("fx"), lit ("Fx")]), .star ccDig, .bword],
  -- \b(SFX|sfx)\b
  cat [.bword, .grp 1 (alts [lit ("SFX"), lit ("sfx")]), .bword],
  -- \bARAB\b
  cat [.bword, lit ("ARAB"), .bword],
  -- \bGABY\d*\b
  cat [.bword, lit ("GABY"), .star ccDig, .bword],
  -- \bSASHKO\b
  cat [.bword, lit ("SASHKO"), .bword],
  -- \bPREMIER\b
  cat [.bword, lit ("PREMIER"), .bword]]

/-- One solfege entry of MELODIC_PATTERNS:
\b(Xx|XX|xx)[\s_\-]?(\d+)?(?:\s|$|[_\-]) -/
def solfP (u m l : String) : RE :=
  cat [.bword, .grp 1 (alts [lit u, lit m, lit l]), opt ccSep3,
       opt (.grp 2 (plusRE ccDig)), alts [.cls [.spc], .eos, .cls [.single '_', .single '-']]]

/-- One flat-note entry of MELODIC_PATTERNS: \b(Xxb|xxb|XXB)[\s_\-]?(\d+)? -/
def flatP (a b c : String) : RE :=
  cat [.bword, .grp 1 (alts [lit a, lit b, lit c]), opt ccSep3,
       opt (.grp 2 (plusRE ccDig))]

/-- MELODIC_PATTERNS from sample_classifier.py: each pattern paired
with its note override (none for direct letter captures, the string
sharp selecting the solfege sharp table). -/
def MELODIC_PATTERNS : List (RE × Option String) := [
  (solfP ("Do") ("DO") ("do"), some ("C")),
  (solfP ("Re") ("RE") ("re"), some ("D")),
  (solfP ("Mi") ("MI") ("mi"), some ("E")),
  (solfP ("Fa") ("FA") ("fa"), some ("F")),
  (solfP ("Sol") ("SOL") ("sol"), some ("G")),
  (solfP ("La") ("LA") ("la"), some ("A")),
  (solfP ("Si") ("SI") ("si"), some ("B")),
  -- \b([A-G])#?(\d)\b
  (cat [.bword, .grp 1 (.cls [.range 'A' 'G']), opt (.ch '#'),
        .grp 2 ccDig, .bword], none),
  -- \bFL([A-G])(\d)\b
  (cat [.bword, lit ("FL"), .grp 1 (.cls [.range 'A' 'G']),
        .grp 2 ccDig, .bword], none),
  -- \b(Do|Re|Mi|Fa|Sol|La|Si)[Dd]iez[\s_\-]?(\d+)?
  (cat [.bword,
        .grp 1 (alts [lit ("Do"), lit ("Re"), lit ("Mi"), lit ("Fa"),
                      lit ("Sol"), lit ("La"), lit ("Si")]),
        .cls [.single 'D', .single 'd'], lit ("iez"), opt ccSep3,
        opt (.grp 2 (plusRE ccDig))], some ("sharp")),
  (flatP ("Mib") ("mib") ("MIB"), some ("Eb")),
  (flatP ("Lab") ("lab") ("LAB"), some ("Ab")),
  (flatP ("Sib") ("sib") ("SIB"), some ("Bb")),
  -- [_\-]([A-G]#?)(\d)\b
  (cat [.cls [.single '_', .single '-'],
        .grp 1 (cat [.cls [.range 'A' 'G'], opt (.ch '#')]),
        .grp 2 ccDig, .bword], none),
  -- ^([A-G])(\d+)\b
  (cat [.bos, .grp 1 (.cls [.range 'A' 'G']), .grp 2 (plusRE ccDig), .bword], none)]

/-- MELODIC_INSTRUMENT_PATTERNS from sample_classifier.py. -/
def MELODIC_INSTRUMENT_PATTERNS : List RE := [
  -- \b(Piano|PIANO|piano)\b
  cat [.bword, .grp 1 (alts [lit ("Piano"), lit ("PIANO"), lit ("piano")]), .bword],
  -- \b(Strings?|STRING|string)\b
  cat [.bword, .grp 1 (alts [cat [lit ("String"), opt (.ch 's')],
                             lit ("STRING"), lit ("string")]), .bword],
  -- \b(Violin|VIOLIN|violin|Vioara|vioara)\b
  cat [.bword, .grp 1 (alts [lit ("Violin"), lit ("VIOLIN"), lit ("violin"),
                             lit ("Vioara"), lit ("vioara")]), .bword],
  -- \b(Viola|VIOLA|viola)\b
  cat [.bword, .grp 1 (alts [lit ("Viola"), lit ("VIOLA"), lit ("viola")]), .bword],
  -- \b(Cello|CELLO|cello)\b
  cat [.bword, .grp 1 (alts [lit ("Cello"), lit ("CELLO"), lit ("cello")]), .bword],
  -- \b(Bass|BASS|bass)\b
  cat [.bword, .grp 1 (alts [lit ("Bass"), lit ("BASS"), lit ("bass")]), .bword],
  -- \b(Guitar|GUITAR|guitar)\b
  cat [.bword, .grp 1 (alts [lit ("Guitar"), lit ("GUITAR"), lit ("guitar")]), .bword],
  -- \b(Organ|ORGAN|organ)\b
  cat [.bword, .grp 1 (alts [lit ("Organ"), lit ("ORGAN"), lit ("organ")]), .bword],
  -- \b(Synth|SYNTH|synth)\b
  cat [.bword, .grp 1 (alts [lit ("Synth"), lit ("SYNTH"), lit ("synth")]), .bword],
  -- \b(Pad|PAD|pad)\b
  cat [.bword, .grp 1 (alts [lit ("Pad"), lit ("PAD"), lit ("pad")]), .bword],
  -- \b(Lead|LEAD|lead)\b
  cat [.bword, .grp 1 (alts [lit ("Lead"), lit ("LEAD"), lit ("lead")]), .bword],
  -- \b(Brass|BRASS|brass)\b
  cat [.bword, .grp 1 (alts [lit ("Brass"), lit ("BRASS"), lit ("brass")]), .bword],
  -- \b(Trumpet|TRUMPET|trumpet|Trompeta)\b
  cat [.bword, .grp 1 (alts [lit ("Trumpet"), lit ("TRUMPET"),
                             lit ("trumpet"), lit ("Trompeta")]), .bword],
  -- \b(Sax|SAX|sax|Saxo)\b
  cat [.bword, .grp 1 (alts [lit ("Sax"), lit ("SAX"), lit ("sax"), lit ("Saxo")]), .bword],
  -- \b(Flute|FLUTE|flute|Fleita|Fluier)\b
  cat [.bword, .grp 1 (alts [lit ("Flute"), lit ("FLUTE"), lit ("flute"),
                             lit ("Fleita"), lit ("Fluier")]), .bword],
  -- \b(Clarinet|CLARINET|clarinet)\b
  cat [.bword, .grp 1 (alts [lit ("Clarinet"), lit ("CLARINET"), lit ("clarinet")]), .bword],
  -- \b(Oboe|OBOE|oboe)\b
  cat [.bword, .grp 1 (alts [lit ("Oboe"), lit ("OBOE"), lit ("oboe")]), .bword],
  -- \b(Accordion|ACCORDION|accordion|Acordeon)\b
  cat [.bword, .grp 1 (alts [lit ("Accordion"), lit ("ACCORDION"),
                             lit ("accordion"), lit ("Acordeon")]), .bword],
  -- \b(Harmonica|HARMONICA|harmonica)\b
  cat [.bword, .grp 1 (alts [lit ("Harmonica"), lit ("HARMONICA"), lit ("harmonica")]), .bword],
  -- \b(Harp|HARP|harp)\b
  cat [.bword, .grp 1 (alts [lit ("Harp"), lit ("HARP"), lit ("harp")]), .bword],
  -- \b(Marimba|MARIMBA|marimba)\b
  cat [.bword, .grp 1 (alts [lit ("Marimba"), lit ("MARIMBA"), lit ("marimba")]), .bword],
  -- \b(Vibraphone|VIBRAPHONE|vibraphone)\b
  cat [.bword, .grp 1 (alts [lit ("Vibraphone"), lit ("VIBRAPHONE"), lit ("vibraphone")]), .bword],
  -- \b(Xylophone|XYLOPHONE|xylophone)\b
  cat [.bword, .grp 1 (alts [lit ("Xylophone"), lit ("XYLOPHONE"), lit ("xylophone")]), .bword],
  -- \b(Voice|VOICE|voice|Choir|CHOIR|choir)\b
  cat [.bword, .grp 1 (alts [lit ("Voice"), lit ("VOICE"), lit ("voice"),
                             lit ("Choir"), lit ("CHOIR"), lit ("choir")]), .bword],
  -- \b(Ocarina|OCARINA|ocarina)\b
  cat [.bword, .grp 1 (alts [lit ("Ocarina"), lit ("OCARINA"), lit ("ocarina")]), .bword],
  -- \b(Nai|NAI|nai)\b
  cat [.bword, .grp 1 (alts [lit ("Nai"), lit ("NAI"), lit ("nai")]), .bword],
  -- \b(Bandon|bandon)\b
  cat [.bword, .grp 1 (alts [lit ("Bandon"), lit ("bandon")]), .bword],
  -- \b(Zeta|ZETA|zeta)\b
  cat [.bword, .grp 1 (alts [lit ("Zeta"), lit ("ZETA"), lit ("zeta")]), .bword],
  -- \b(banat|Banat|BANAT)\b
  cat [.bword, .grp 1 (alts [lit ("banat"), lit ("Banat"), lit ("BANAT")]), .bword],
  -- \b(Blerim|BLERIM)\b
  cat [.bword, .grp 1 (alts [lit ("Blerim"), lit ("BLERIM")]), .bword],
  -- \b(Braci|BRACI)\b
  cat [.bword, .grp 1 (alts [lit ("Braci"), lit ("BRACI")]), .bword],
  -- \b(Returnela|RETURNELA)\b
  cat [.bword, .grp 1 (alts [lit ("Returnela"), lit ("RETURNELA")]), .bword]]

/-- _is_drum_sample from sample_classifier.py: any drum pattern matches
under re.IGNORECASE. -/
def is_drum_sample (name : List Char) : Bool :=
  DRUM_PATTERNS.any (fun p => (reSearch p true name).isSome)

/-- The numeric value of a digit string (int on a digit group). -/
def digitsVal (d : List Char) : Nat :=
  d.foldl (fun a c => a * 10 + (c.toNat - 48)) 0

/-- The solfege sharp table of _detect_note. -/
def sharpMap (base : String) : String :=
  if base = "Do" then "C#" else if base = "Re" then "D#"
  else if base = "Mi" then "F" else if base = "Fa" then "F#"
  else if base = "Sol" then "G#" else if base = "La" then "A#"
  else if base = "Si" then "C" else ""

/-- The octave extraction int(groups[1]) if groups[1] else -1. -/
def octaveOfGroup (g : Option (List Char)) : Int :=
  match g with
  | some d => if d.isEmpty then -1 else (digitsVal d : Int)
  | none => -1

/-- The octave extraction with the additional isdigit check used on the
non-sharp branches. -/
def octaveOfGroupDigits (g : Option (List Char)) : Int :=
  match g with
  | some d => if !d.isEmpty && d.all Char.isDigit then (digitsVal d : Int) else -1
  | none => -1

/-- The pattern loop of _detect_note (patterns tried without
re.IGNORECASE): the first matching pattern supplies note and octave
through its override and captured groups. -/
def detectNoteGo (name : List Char) :
    List (RE × Option String) → String × Int
  | [] => ("", -1)
  | (p, ov) :: rest =>
    match reSearch p false name with
    | none => detectNoteGo name rest
    | some caps =>
      let g1 := groupStr name caps 1
      let g2 := groupStr name caps 2
      match ov with
      | some s =>
        if s = "sharp" then
          (sharpMap (String.mk (g1.getD [])), octaveOfGroup g2)
        else (s, octaveOfGroupDigits g2)
      | none => (String.mk (g1.getD []), octaveOfGroupDigits g2)

/-- _detect_note from sample_classifier.py. -/
def detect_note (name : List Char) : String × Int :=
  detectNoteGo name MELODIC_PATTERNS

/-- Case-insensitive substring containment (the in operator over
str.lower()). -/
def containsLowerStr (s : List Char) (t : List Char) : Bool :=
  let ls := s.map Char.toLower
  (List.range (ls.length + 1)).any (fun i => decide ((ls.drop i).take t.length = t))

/-- The pattern loop of _has_melodic_instrument: on the first matching
pattern (under re.IGNORECASE), a name holding both bass and drum is
rejected, anything else accepted. -/
def hasMelodicGo (name : List Char) : List RE → Bool
  | [] => false
  | p :: rest =>
    if (reSearch p true name).isSome then
      if containsLowerStr name (String.toList ("bass")) &&
         containsLowerStr name (String.toList ("drum")) then false
      else true
    else hasMelodicGo name rest

/-- _has_melodic_instrument from sample_classifier.py. -/
def has_melodic_instrument (name : List Char) : Bool :=
  hasMelodicGo name MELODIC_INSTRUMENT_PATTERNS

/-- The counting loop of _infer_from_context: drum matches against
melodic matches over the sibling names, skipping the name itself. -/
def contextCounts (name : List Char) (ctx : List (List Char)) : Nat × Nat :=
  ctx.foldl (fun dm n =>
    if n = name then dm
    else if is_drum_sample n then (dm.1 + 1, dm.2)
    else if (detect_note n).1 ≠ "" || has_melodic_instrument n then (dm.1, dm.2 + 1)
    else dm) (0, 0)

/-- _infer_from_context from sample_classifier.py. -/
def infer_from_context (name : List Char) (ctx : List (List Char)) : SampleType :=
  let dm := contextCounts name ctx
  if dm.1 < dm.2 then .MELODIC
  else if dm.2 < dm.1 then .DRUMKIT
  else .UNKNOWN

/-- classify_sample from sample_classifier.py: drum patterns first,
then note detection, then melodic instrument names, then sibling
context, else unknown.  An empty sibling list stands for the Python
default of no context (both are falsy). -/
def classify_sample (name : List Char) (context_samples : List (List Char)) :
    SampleType × String × Int :=
  if is_drum_sample name then (.DRUMKIT, "", -1)
  else
    let no := detect_note name
    if no.1 ≠ "" then (.MELODIC, no.1, no.2)
    else if has_melodic_instrument name then (.MELODIC, "", -1)
    else if !context_samples.isEmpty then
      let t := infer_from_context name context_samples
      if t ≠ .UNKNOWN then (t, "", -1) else (.UNKNOWN, "", -1)
    else (.UNKNOWN, "", -1)

/-
Concrete inputs used by the witnesses and counterexamples below.
-/

/-- The empty byte buffer. -/
def bytesEmpty : Bytes := { size := 0, get := fun _ => 0 }

/-- Footer of pcmGood: KBEG, a count word 5, the offsets 0x100 and
0x250, KEND. -/
def pcmGoodFooter : List Nat :=
  [0x4B, 0x42, 0x45, 0x47, 0, 0, 0, 5, 0, 0, 1, 0, 0, 0, 2, 0x50,
   0x4B, 0x45, 0x4E, 0x44]

/-- A 788-byte sample container: KBEG at 0x300, KEND at 0x310, a
leading count word followed by the offset words 0x100 and 0x250, and a
big-endian sample-rate field 0xBB80 at offset 20 of each of the two
per-sample headers (positions 0x114 and 0x264); all other bytes zero. -/
def pcmGood : Bytes :=
  { size := 0x314
    get := fun i =>
      if i = 0x114 then 0xBB else if i = 0x115 then 0x80
      else if i = 0x264 then 0xBB else if i = 0x265 then 0x80
      else if i < 0x300 then 0 else pcmGoodFooter.getD (i - 0x300) 0 }

/-- Footer of pcmNoCount: KBEG, the offsets 0x100 and 0x250 with no
leading count word, KEND. -/
def pcmNoCountFooter : List Nat :=
  [0x4B, 0x42, 0x45, 0x47, 0, 0, 1, 0, 0, 0, 2, 0x50,
   0x4B, 0x45, 0x4E, 0x44]

/-- A 784-byte sample container identical to pcmGood except that its
offset table has no leading count word: the table holds exactly the two
plausible offsets 0x100 and 0x250. -/
def pcmNoCount : Bytes :=
  { size := 0x310
    get := fun i =>
      if i = 0x114 then 0xBB else if i = 0x115 then 0x80
      else if i = 0x264 then 0xBB else if i = 0x265 then 0x80
      else if i < 0x300 then 0 else pcmNoCountFooter.getD (i - 0x300) 0 }

/-- Footer of pcmUnsorted: KBEG, the words 0x41, 0x41, 0x190, 0x41,
0x190, KEND (the first word is skipped by the decoder, leaving the
non-increasing offset table 0x41, 0x190, 0x41, 0x190). -/
def pcmUnsortedFooter : List Nat :=
  [0x4B, 0x42, 0x45, 0x47, 0, 0, 0, 0x41, 0, 0, 0, 0x41, 0, 0, 1, 0x90,
   0, 0, 0, 0x41, 0, 0, 1, 0x90, 0x4B, 0x45, 0x4E, 0x44]

/-- A 540-byte sample container with KBEG at 0x200 whose offset table
is not in increasing order; all bytes before the footer are zero. -/
def pcmUnsorted : Bytes :=
  { size := 0x21C
    get := fun i => if i < 0x200 then 0 else pcmUnsortedFooter.getD (i - 0x200) 0 }

/-- An 80-byte KSF1 file: signature KSF1, sample rate 44100, bit depth
16, one channel, and a header frame-count field of 1000 even though
only 16 bytes follow the 64-byte data offset. -/
def ksfOverstated : Bytes :=
  { size := 80
    get := fun i =>
      if i = 0 then 0x4B else if i = 1 then 0x53
      else if i = 2 then 0x46 else if i = 3 then 0x31
      else if i = 8 then 0x44 else if i = 9 then 0xAC
      else if i = 12 then 16 else if i = 14 then 1
      else if i = 16 then 0xE8 else if i = 17 then 0x03
      else 0 }

/-- A one-sample input for the sound-bank serializer: four payload
bytes, so two 16-bit frames. -/
def sfOneSample : SampleInfo :=
  { name := .given
    sample_rate := 48000
    root_key := 60
    raw_data := some { size := 4, get := fun _ => 1 } }

/-- Three package samples distinguishable by their sample rates. -/
def demoPkgSample1 : SampleInfo := { name := .given, sample_rate := 1 }

/-- Second demo package sample. -/
def demoPkgSample2 : SampleInfo := { name := .given, sample_rate := 2 }

/-- Third demo package sample. -/
def demoPkgSample3 : SampleInfo := { name := .given, sample_rate := 3 }

/-- A package with three samples and one multisample whose zones
reference sample indices 2 and then 0, both over the full key and
velocity range. -/
def demoPkg : SetPackage :=
  { samples := [demoPkgSample1, demoPkgSample2, demoPkgSample3]
    multisamples := [{ name := .given
                       zones := [{ sample_index := 2 }, { sample_index := 0 }]
                       samples := [] }] }

/-- A 32-byte all-zero buffer: long enough for the keymap decoder, with
no recognized signature and no validating zone hypothesis. -/
def kmpZeros : Bytes := { size := 32, get := fun _ => 0 }

/-
Theorems.  Shared helper lemmas come first; each claim then gets one
theorem, with a witness or counterexample where required.
-/

theorem Bytes.slice_size_of_le {b : Bytes} {lo hi : Nat}
    (h1 : hi ≤ b.size) (h2 : lo ≤ hi) : (b.slice lo hi).size = hi - lo := by
  simp only [Bytes.slice]
  omega

theorem Bytes.slice_get_of_le {b : Bytes} {lo hi : Nat} (i : Nat)
    (h : lo ≤ b.size) : (b.slice lo hi).get i = b.get (lo + i) := by
  simp only [Bytes.slice]
  congr 1
  omega

theorem Bytes.rfindTag_bound {b : Bytes} {t : List Nat} {k : Nat}
    (h : b.rfindTag t = some k) : k + t.length ≤ b.size := by
  unfold Bytes.rfindTag at h
  have hmem : k ∈ (List.range (b.size + 1)).filter (fun i => b.matchesAt t i) :=
    List.max?_mem (fun a b => max_choice a b) h
  have hmatch : b.matchesAt t k = true := (List.mem_filter.mp hmem).2
  unfold Bytes.matchesAt at hmatch
  have := (Bool.and_eq_true _ _).mp hmatch
  exact of_decide_eq_true this.1

theorem readBE16?_some_iff {b : Bytes} {pos v : Nat} :
    readBE16? b pos = some v ↔
      pos + 2 ≤ b.size ∧ b.get pos * 0x100 + b.get (pos + 1) = v := by
  unfold readBE16?
  split <;> simp_all

theorem readBE32?_some_iff {b : Bytes} {pos v : Nat} :
    readBE32? b pos = some v ↔
      pos + 4 ≤ b.size ∧
        b.get pos * 0x1000000 + b.get (pos+1) * 0x10000 +
          b.get (pos+2) * 0x100 + b.get (pos+3) = v := by
  unfold readBE32?
  split <;> simp_all

theorem swap_endian_size (b : Bytes) :
    (PCMParser.swap_endian b).size =
      if b.size < 2 then b.size else b.size - b.size % 2 := by
  unfold PCMParser.swap_endian
  split <;> simp

theorem swap_endian_size_div2 (b : Bytes) :
    (PCMParser.swap_endian b).size / 2 = b.size / 2 := by
  rw [swap_endian_size]
  split <;> omega

theorem swap_endian_size_le (b : Bytes) :
    (PCMParser.swap_endian b).size ≤ b.size := by
  rw [swap_endian_size]
  split <;> omega

theorem parse_names_v1_loop_isSome (data : Bytes) (pos : Nat)
    (names : List (Nat × List Nat)) :
    (PCMParser.parse_names_v1_loop data pos names).isSome := by
  induction pos, names using PCMParser.parse_names_v1_loop.induct data with
  | case1 pos names h1 h2 =>
    unfold PCMParser.parse_names_v1_loop
    simp [h1, h2]
  | case2 pos names h1 h2 hat =>
    exfalso
    simp only [Bytes.at?, Bytes.slice] at hat
    split at hat
    · simp at hat
    · next hcond => omega
  | case3 pos names h1 h2 b0 hat hcond hne =>
    exfalso
    simp only [PCMParser.nameEnd?, Bytes.slice] at hne
    split at hne
    · simp at hne
    · next hc => omega
  | case4 pos names h1 h2 b0 hat hcond ne hne h2le hat20 =>
    exfalso
    simp only [Bytes.at?, Bytes.slice] at hat20
    split at hat20
    · simp at hat20
    · next hc => omega
  | case5 pos names h1 h2 b0 hat hcond ne hne h2le idx hat20 ih =>
    unfold PCMParser.parse_names_v1_loop
    simp [h1, h2, hat, hne, hat20, hcond, h2le, ih]
  | case6 pos names h1 h2 b0 hat hcond ne hne h2le =>
    unfold PCMParser.parse_names_v1_loop
    simp [h1, h2, hat, hne, hcond, h2le]
  | case7 pos names h1 h2 b0 hat hcond =>
    unfold PCMParser.parse_names_v1_loop
    simp [h1, h2, hat, hcond]
  | case8 pos names h1 =>
    unfold PCMParser.parse_names_v1_loop
    simp [h1]

theorem runDelta_isSome (data : Bytes) (maxPos pos : Nat)
    (hmax : maxPos ≤ data.size) (delta : Nat) :
    (PCMParser.runDelta data maxPos pos delta).isSome := by
  induction delta using PCMParser.runDelta.induct data maxPos pos with
  | case1 delta h1 hat =>
    exfalso
    simp only [Bytes.at?] at hat
    split at hat
    · simp at hat
    · next hc => omega
  | case2 delta h1 c hat hc ih =>
    unfold PCMParser.runDelta
    simp [h1, hat, hc, ih]
  | case3 delta h1 c hat hc =>
    unfold PCMParser.runDelta
    simp [h1, hat, hc]
  | case4 delta h1 =>
    unfold PCMParser.runDelta
    simp [h1]

theorem parse_names_v2_loop_isSome (data : Bytes) (maxPos : Nat)
    (hmax : maxPos ≤ data.size) (pos idx : Nat)
    (names : List (Nat × List Nat)) :
    (PCMParser.parse_names_v2_loop data maxPos pos idx names).isSome := by
  induction pos, idx, names using PCMParser.parse_names_v2_loop.induct data maxPos with
  | case1 pos idx names h1 hat =>
    exfalso
    simp only [Bytes.at?] at hat
    split at hat
    · simp at hat
    · next hc => omega
  | case2 pos idx names h1 c hat hc hrd =>
    exfalso
    have := runDelta_isSome data maxPos pos hmax 0
    simp [hrd] at this
  | case3 pos idx names h1 c hat hc d hrd hlen hok ih =>
    unfold PCMParser.parse_names_v2_loop
    simp [h1, hat, hc, hrd, hlen, hok, ih]
  | case4 pos idx names h1 c hat hc d hrd hlen hok ih =>
    unfold PCMParser.parse_names_v2_loop
    simp [h1, hat, hc, hrd, hlen, hok, ih]
  | case5 pos idx names h1 c hat hc d hrd hlen ih =>
    unfold PCMParser.parse_names_v2_loop
    simp [h1, hat, hc, hrd, hlen, ih]
  | case6 pos idx names h1 c hat hc ih =>
    unfold PCMParser.parse_names_v2_loop
    simp [h1, hat, hc, ih]
  | case7 pos idx names h1 =>
    unfold PCMParser.parse_names_v2_loop
    simp [h1]

theorem parse_sample_names_isSome (data : Bytes) :
    (PCMParser.parse_sample_names data).isSome := by
  unfold PCMParser.parse_sample_names
  cases h : data.findTag tagKORF with
  | none => rfl
  | some korf =>
    unfold PCMParser.parse_names_format_v1 PCMParser.parse_names_format_v2
    have h1 := parse_names_v1_loop_isSome data (PCMParser.v1Start korf) []
    cases h1' : PCMParser.parse_names_v1_loop data (PCMParser.v1Start korf) [] with
    | none => simp [h1'] at h1
    | some n1 =>
      have h2 := parse_names_v2_loop_isSome data (min data.size 0x8000)
        (by omega) 0x24 0 []
      cases h2' : PCMParser.parse_names_v2_loop data (min data.size 0x8000) 0x24 0 [] with
      | none => simp [h2'] at h2
      | some n2 =>
        simp only [h1', h2']
        by_cases hn1 : n1 = [] <;> by_cases hn2 : n2 = [] <;> simp [hn1, hn2]

theorem offsetScanGo_isSome (data : Bytes) (kbeg : Nat) :
    ∀ n pos, (0 < n → pos + 4 * n ≤ data.size) →
      (PCMParser.offsetScanGo data kbeg n pos).isSome := by
  intro n
  induction n with
  | zero => intro pos _h; simp [PCMParser.offsetScanGo]
  | succ m ih =>
    intro pos h
    have h := h (by omega)
    unfold PCMParser.offsetScanGo
    simp only [readBE32?]
    rw [if_pos (by omega : pos + 4 ≤ data.size)]
    have hrec := ih (pos + 4) (by intro _; omega)
    cases hgo : PCMParser.offsetScanGo data kbeg m (pos + 4) with
    | none => simp [hgo] at hrec
    | some rest => simp [hgo]

theorem offsetScan_isSome (data : Bytes) (kbeg kendE pos : Nat)
    (h : kendE ≤ data.size) :
    (PCMParser.offsetScan data kbeg kendE pos).isSome := by
  unfold PCMParser.offsetScan
  exact offsetScanGo_isSome data kbeg _ pos (by intro hpos; omega)

theorem offsetScan_stop (data : Bytes) (kbeg kendE pos : Nat)
    (h : ¬ pos < kendE - 3) :
    PCMParser.offsetScan data kbeg kendE pos = some [] := by
  unfold PCMParser.offsetScan
  rw [(by omega : (kendE - 3 - pos + 3) / 4 = 0)]
  rfl

theorem offsetScan_step (data : Bytes) (kbeg kendE pos : Nat)
    (h : pos < kendE - 3) :
    PCMParser.offsetScan data kbeg kendE pos =
      match readBE32? data pos with
      | none => none
      | some v =>
        match PCMParser.offsetScan data kbeg kendE (pos + 4) with
        | none => none
        | some rest => some (if 0x40 < v ∧ v < kbeg then v :: rest else rest) := by
  unfold PCMParser.offsetScan
  rw [(by omega : (kendE - 3 - pos + 3) / 4 = (kendE - 3 - (pos + 4) + 3) / 4 + 1)]
  rfl

theorem effKend_le (data : Bytes) (kbeg : Nat) :
    PCMParser.effKend data kbeg (data.rfindTag tagKEND) ≤ data.size := by
  cases h : data.rfindTag tagKEND with
  | none => simp [PCMParser.effKend]
  | some k =>
    have hb4 : k + 4 ≤ data.size := by simpa [tagKEND] using Bytes.rfindTag_bound h
    simp only [PCMParser.effKend]
    split <;> omega

theorem parse_offset_table_isSome (data : Bytes) (kbeg : Nat)
    (kendRes : Option Nat) (h : PCMParser.effKend data kbeg kendRes ≤ data.size) :
    (PCMParser.parse_offset_table data kbeg kendRes).isSome := by
  unfold PCMParser.parse_offset_table
  by_cases h8 : kbeg + 4 + 8 ≤ data.size
  · rw [if_pos h8]
    cases hv1 : readBE32? data (kbeg + 4) with
    | none =>
      exfalso
      simp only [readBE32?] at hv1
      rw [if_pos (by omega : kbeg + 4 + 4 ≤ data.size)] at hv1
      exact Option.noConfusion hv1
    | some v1 =>
      cases hv2 : readBE32? data (kbeg + 4 + 4) with
      | none =>
        exfalso
        simp only [readBE32?] at hv2
        rw [if_pos (by omega : kbeg + 4 + 4 + 4 ≤ data.size)] at hv2
        exact Option.noConfusion hv2
      | some v2 =>
        show (if 0x40 < v2 ∧ v2 < kbeg then
                PCMParser.offsetScan data kbeg (PCMParser.effKend data kbeg kendRes) (kbeg + 4 + 4)
              else
                PCMParser.offsetScan data kbeg (PCMParser.effKend data kbeg kendRes) (kbeg + 4)).isSome = true
        split
        · exact offsetScan_isSome data kbeg _ _ h
        · exact offsetScan_isSome data kbeg _ _ h
  · rw [if_neg h8]
    exact offsetScan_isSome data kbeg _ _ h

theorem extractLoop_isSome (data : Bytes) (names : List (Nat × List Nat)) :
    ∀ bs i, (PCMParser.extractLoop data names bs i).isSome := by
  intro bs
  induction bs with
  | nil => intro i; simp [PCMParser.extractLoop]
  | cons b0 rest ih =>
    intro i
    cases rest with
    | nil => simp [PCMParser.extractLoop]
    | cons b1 rest2 =>
      unfold PCMParser.extractLoop
      by_cases hskip : b1 ≤ b0 + PCMParser.SAMPLE_HEADER_SIZE ∨ data.size ≤ b0
      · rw [if_pos hskip]; exact ih (i + 1)
      · rw [if_neg hskip]
        by_cases hh : 22 ≤ (data.slice b0 (b0 + PCMParser.SAMPLE_HEADER_SIZE)).size
        · rw [if_pos hh]
          have hr : readBE16? (data.slice b0 (b0 + PCMParser.SAMPLE_HEADER_SIZE)) 20 =
              some ((data.slice b0 (b0 + PCMParser.SAMPLE_HEADER_SIZE)).get 20 * 0x100 +
                    (data.slice b0 (b0 + PCMParser.SAMPLE_HEADER_SIZE)).get 21) := by
            simp [readBE16?]; omega
          rw [hr]
          have hrec := ih (i + 1)
          cases hx : PCMParser.extractLoop data names (b1 :: rest2) (i + 1) with
          | none => simp [hx] at hrec
          | some l => simp [hx]
        · rw [if_neg hh]
          have hrec := ih (i + 1)
          cases hx : PCMParser.extractLoop data names (b1 :: rest2) (i + 1) with
          | none => simp [hx] at hrec
          | some l => simp [hx]

theorem probeAudioStart_isSome (data : Bytes) :
    ∀ cands, (PCMParser.probeAudioStart data cands).isSome := by
  intro cands
  induction cands with
  | nil => simp [PCMParser.probeAudioStart]
  | cons off rest ih =>
    unfold PCMParser.probeAudioStart
    by_cases hg : off + 100 < data.size
    · rw [if_pos hg]
      have hsz : (data.slice off (off + 100)).size = 100 := by
        rw [Bytes.slice_size_of_le (by omega) (by omega)]
        omega
      rw [if_pos hsz]
      split
      · simp
      · exact ih
    · rw [if_neg hg]; exact ih

theorem parse_legacy_format_isSome (data : Bytes) :
    (PCMParser.parse_legacy_format data).isSome := by
  unfold PCMParser.parse_legacy_format
  cases h : data.findTag tagKORF with
  | none => rfl
  | some k =>
    have hp := probeAudioStart_isSome data [0x100, 0x200, 0x400, 0x800, 0x1000]
    cases hp' : PCMParser.probeAudioStart data [0x100, 0x200, 0x400, 0x800, 0x1000] with
    | none => simp [hp'] at hp
    | some a =>
      simp only [hp']
      split <;> simp

/-- C9: the sample-container decoder is total: for every input buffer
it returns a (possibly empty) list of samples; every guarded read in
the footer path, the name-table scans and the legacy fallback succeeds,
so the Python-exception branches of the model (none) are unreachable. -/
theorem C9_pcm_parse_total (data : Bytes) :
    ∃ samples, PCMParser.parse data = some samples := by
  rw [← Option.isSome_iff_exists]
  unfold PCMParser.parse
  by_cases hs : data.size < 256
  · simp [hs]
  · rw [if_neg hs]
    cases hk : data.rfindTag tagKBEG with
    | none => exact parse_legacy_format_isSome data
    | some kbeg =>
      have hn := parse_sample_names_isSome data
      cases hn' : PCMParser.parse_sample_names data with
      | none => simp [hn'] at hn
      | some names =>
        show (match PCMParser.parse_offset_table data kbeg (data.rfindTag tagKEND) with
              | none => none
              | some offs =>
                if offs = [] then some []
                else PCMParser.extractLoop data names (offs ++ [kbeg]) 0).isSome = true
        have ht := parse_offset_table_isSome data kbeg (data.rfindTag tagKEND)
          (effKend_le data kbeg)
        cases ht' : PCMParser.parse_offset_table data kbeg (data.rfindTag tagKEND) with
        | none => simp [ht'] at ht
        | some offs =>
          show (if offs = [] then some []
                else PCMParser.extractLoop data names (offs ++ [kbeg]) 0).isSome = true
          by_cases ho : offs = []
          · rw [if_pos ho]; rfl
          · rw [if_neg ho]
            exact extractLoop_isSome data names (offs ++ [kbeg]) 0

/-- One emitted block of the extraction loop of PCMParser.parse. -/
theorem extractLoop_emit (data : Bytes) (names : List (Nat × List Nat))
    (i b0 b1 : Nat) (rest : List Nat)
    (hblock : b0 + PCMParser.SAMPLE_HEADER_SIZE < b1)
    (hb76 : b0 + PCMParser.SAMPLE_HEADER_SIZE ≤ data.size) :
    PCMParser.extractLoop data names (b0 :: b1 :: rest) i =
      match PCMParser.extractLoop data names (b1 :: rest) (i + 1) with
      | none => none
      | some l =>
        some (PCMParser.mkPCMSample data names i b0 b1
          (if data.get (b0 + 20) * 0x100 + data.get (b0 + 21) = 0 then
            PCMParser.default_sample_rate
          else data.get (b0 + 20) * 0x100 + data.get (b0 + 21)) :: l) := by
  have hsz : (data.slice b0 (b0 + PCMParser.SAMPLE_HEADER_SIZE)).size =
      PCMParser.SAMPLE_HEADER_SIZE := by
    rw [Bytes.slice_size_of_le hb76 (by omega)]
    omega
  have hget20 : (data.slice b0 (b0 + PCMParser.SAMPLE_HEADER_SIZE)).get 20 =
      data.get (b0 + 20) := Bytes.slice_get_of_le 20 (by omega)
  have hget21 : (data.slice b0 (b0 + PCMParser.SAMPLE_HEADER_SIZE)).get 21 =
      data.get (b0 + 21) := Bytes.slice_get_of_le 21 (by omega)
  have h76 : PCMParser.SAMPLE_HEADER_SIZE = 76 := rfl
  conv_lhs => unfold PCMParser.extractLoop
  rw [if_neg (by rw [h76] at hblock hb76 ⊢; omega :
        ¬ (b1 ≤ b0 + PCMParser.SAMPLE_HEADER_SIZE ∨ data.size ≤ b0))]
  rw [if_pos (by rw [hsz]; simp [PCMParser.SAMPLE_HEADER_SIZE] :
        22 ≤ (data.slice b0 (b0 + PCMParser.SAMPLE_HEADER_SIZE)).size)]
  have hread : readBE16? (data.slice b0 (b0 + PCMParser.SAMPLE_HEADER_SIZE)) 20 =
      some (data.get (b0 + 20) * 0x100 + data.get (b0 + 21)) := by
    rw [readBE16?_some_iff]
    constructor
    · rw [hsz]; simp [PCMParser.SAMPLE_HEADER_SIZE]
    · rw [hget20, hget21]
  rw [hread]

/-- C2: for a container with footer markers at kbeg < kend, an offset table
whose recovered entries are exactly [0x100, 0x250], an adequate gap below the
footer, and a big-endian 16-bit value 0xBB80 at byte offset 20 of each
per-sample header, the decoder yields exactly 2 samples with sample_rate
48000 and num_samples equal to (block size minus 76) divided by 2. The
hypothesis names the RESULT of the offset-table step, not the set of
plausible words in the table: when a plausible word precedes 0x100 the step
itself drops 0x100, which is the corrected part of this claim. -/
theorem C2_thm (data : Bytes) (kbeg kend : Nat)
    (hlen : 256 ≤ data.size)
    (hkbeg : data.rfindTag tagKBEG = some kbeg)
    (hkend : data.rfindTag tagKEND = some kend)
    (hlt : kbeg < kend)
    (hoff : PCMParser.parse_offset_table data kbeg (some kend) = some [0x100, 0x250])
    (hgap : 0x250 + 76 < kbeg)
    (hr1 : readBE16? data (0x100 + 20) = some 0xBB80)
    (hr2 : readBE16? data (0x250 + 20) = some 0xBB80) :
    ∃ s1 s2, PCMParser.parse data = some [s1, s2] ∧
      s1.sample_rate = 48000 ∧ s1.num_samples = (0x250 - 0x100 - 76) / 2 ∧
      s2.sample_rate = 48000 ∧ s2.num_samples = (kbeg - 0x250 - 76) / 2 := by
  have h76 : PCMParser.SAMPLE_HEADER_SIZE = 76 := rfl
  have hksz : kbeg + 4 ≤ data.size := by
    simpa [tagKBEG] using Bytes.rfindTag_bound hkbeg
  obtain ⟨names, hn'⟩ := Option.isSome_iff_exists.mp (parse_sample_names_isSome data)
  have e1 : data.get (0x100 + 20) * 0x100 + data.get (0x100 + 21) = 0xBB80 := by
    have h := (readBE16?_some_iff.mp hr1).2
    norm_num at h ⊢
    omega
  have e2 : data.get (0x250 + 20) * 0x100 + data.get (0x250 + 21) = 0xBB80 := by
    have h := (readBE16?_some_iff.mp hr2).2
    norm_num at h ⊢
    omega
  have hparse : PCMParser.parse data =
      PCMParser.extractLoop data names [0x100, 0x250, kbeg] 0 := by
    unfold PCMParser.parse
    rw [if_neg (by omega : ¬ data.size < 256), hkbeg]
    simp only [hn', hkend, hoff]
    rw [if_neg (by simp : ¬ (([0x100, 0x250] : List Nat) = []))]
    rfl
  rw [hparse]
  rw [extractLoop_emit data names 0 0x100 0x250 [kbeg]
    (by omega) (by omega)]
  rw [extractLoop_emit data names 1 0x250 kbeg []
    (by omega) (by omega)]
  rw [show PCMParser.extractLoop data names [kbeg] 2 = some [] from rfl]
  rw [e1, e2]
  refine ⟨_, _, rfl, ?_, ?_, ?_, ?_⟩
  · simp [PCMParser.mkPCMSample]
  · simp only [PCMParser.mkPCMSample]
    rw [swap_endian_size_div2]
    rw [Bytes.slice_size_of_le (by omega) (by omega)]
    norm_num [h76]
  · simp [PCMParser.mkPCMSample]
  · simp only [PCMParser.mkPCMSample]
    rw [swap_endian_size_div2]
    rw [Bytes.slice_size_of_le (by omega) (by omega)]
    omega

/-- C4 (amended): the offset-table reader skips the first 32-bit word
EXACTLY when the second word lies strictly within the open interval from
0x40 to the footer-begin position: when the second word is plausible the
scan starts past both words, when it is not the scan starts at the first
word (no skip), and the skip is independent of the first word — in
particular, when the first word is plausible too, the unskipped scan
would have kept it, so the skip genuinely drops it.  The original claim
said the skip happens only when the first value is NOT plausible; the
code tests only the second value. -/
theorem C4_thm (data : Bytes) (kbeg : Nat) (kendRes : Option Nat) (v1 v2 : Nat)
    (h8 : kbeg + 12 ≤ data.size)
    (hv1 : readBE32? data (kbeg + 4) = some v1)
    (hv2 : readBE32? data (kbeg + 4 + 4) = some v2) :
    ((0x40 < v2 ∧ v2 < kbeg) →
      PCMParser.parse_offset_table data kbeg kendRes =
        PCMParser.offsetScan data kbeg (PCMParser.effKend data kbeg kendRes) (kbeg + 4 + 4)) ∧
    (¬ (0x40 < v2 ∧ v2 < kbeg) →
      PCMParser.parse_offset_table data kbeg kendRes =
        PCMParser.offsetScan data kbeg (PCMParser.effKend data kbeg kendRes) (kbeg + 4)) ∧
    ((0x40 < v1 ∧ v1 < kbeg) → (0x40 < v2 ∧ v2 < kbeg) →
      kbeg + 4 < PCMParser.effKend data kbeg kendRes - 3 →
      ∀ l, PCMParser.offsetScan data kbeg (PCMParser.effKend data kbeg kendRes) (kbeg + 4 + 4) = some l →
        PCMParser.offsetScan data kbeg (PCMParser.effKend data kbeg kendRes) (kbeg + 4) = some (v1 :: l)) := by
  have hbase : PCMParser.parse_offset_table data kbeg kendRes =
      (if 0x40 < v2 ∧ v2 < kbeg then
        PCMParser.offsetScan data kbeg (PCMParser.effKend data kbeg kendRes) (kbeg + 4 + 4)
      else
        PCMParser.offsetScan data kbeg (PCMParser.effKend data kbeg kendRes) (kbeg + 4)) := by
    unfold PCMParser.parse_offset_table
    rw [if_pos (by omega : kbeg + 4 + 8 ≤ data.size), hv1, hv2]
  refine ⟨?_, ?_, ?_⟩
  · intro hp2
    rw [hbase, if_pos hp2]
  · intro hp2
    rw [hbase, if_neg hp2]
  · intro hp1 hp2 hlt l hl
    rw [offsetScan_step data kbeg _ _ hlt, hv1]
    show (match PCMParser.offsetScan data kbeg (PCMParser.effKend data kbeg kendRes) (kbeg + 4 + 4) with
          | none => none
          | some rest => some (if 0x40 < v1 ∧ v1 < kbeg then v1 :: rest else rest)) = some (v1 :: l)
    rw [hl]
    show some (if 0x40 < v1 ∧ v1 < kbeg then v1 :: l else l) = some (v1 :: l)
    rw [if_pos hp1]

theorem offsetScanGo_mem (data : Bytes) (kbeg : Nat) :
    ∀ n pos l, PCMParser.offsetScanGo data kbeg n pos = some l →
      ∀ v ∈ l, 0x40 < v ∧ v < kbeg := by
  intro n
  induction n with
  | zero =>
    intro pos l h v hv
    simp [PCMParser.offsetScanGo] at h
    subst h
    simp at hv
  | succ m ih =>
    intro pos l h v hv
    unfold PCMParser.offsetScanGo at h
    cases hr : readBE32? data pos with
    | none => rw [hr] at h; exact Option.noConfusion h
    | some w =>
      rw [hr] at h
      cases hrec : PCMParser.offsetScanGo data kbeg m (pos + 4) with
      | none => rw [hrec] at h; exact Option.noConfusion h
      | some rest =>
        rw [hrec] at h
        have hl : (if 0x40 < w ∧ w < kbeg then w :: rest else rest) = l :=
          Option.some.inj h
        by_cases hw : 0x40 < w ∧ w < kbeg
        · rw [if_pos hw] at hl
          subst hl
          rcases List.mem_cons.mp hv with rfl | hv'
          · exact hw
          · exact ih (pos + 4) rest hrec v hv'
        · rw [if_neg hw] at hl
          subst hl
          exact ih (pos + 4) rest hrec v hv
theorem parse_offset_table_mem (data : Bytes) (kbeg : Nat) (kendRes : Option Nat)
    (l : List Nat) (h : PCMParser.parse_offset_table data kbeg kendRes = some l) :
    ∀ v ∈ l, 0x40 < v ∧ v < kbeg := by
  unfold PCMParser.parse_offset_table at h
  split at h
  · split at h
    · split at h
      · exact offsetScanGo_mem data kbeg _ _ l h
      · exact offsetScanGo_mem data kbeg _ _ l h
    · exact Option.noConfusion h
  · exact offsetScanGo_mem data kbeg _ _ l h

theorem extractLoop_skip (data : Bytes) (names : List (Nat × List Nat))
    (i b0 b1 : Nat) (rest : List Nat)
    (hskip : b1 ≤ b0 + PCMParser.SAMPLE_HEADER_SIZE ∨ data.size ≤ b0) :
    PCMParser.extractLoop data names (b0 :: b1 :: rest) i =
      PCMParser.extractLoop data names (b1 :: rest) (i + 1) := by
  conv_lhs => unfold PCMParser.extractLoop
  rw [if_pos hskip]

theorem mkPCMSample_data_size_le (data : Bytes) (names : List (Nat × List Nat))
    (i b0 b1 r : Nat) (hb1 : b1 ≤ data.size)
    (hb : b0 + PCMParser.SAMPLE_HEADER_SIZE ≤ b1) :
    (PCMParser.mkPCMSample data names i b0 b1 r).data_size ≤
      b1 - (b0 + PCMParser.SAMPLE_HEADER_SIZE) := by
  show (PCMParser.swap_endian (data.slice (b0 + PCMParser.SAMPLE_HEADER_SIZE) b1)).size ≤ _
  calc (PCMParser.swap_endian (data.slice (b0 + PCMParser.SAMPLE_HEADER_SIZE) b1)).size
      ≤ (data.slice (b0 + PCMParser.SAMPLE_HEADER_SIZE) b1).size := swap_endian_size_le _
    _ = b1 - (b0 + PCMParser.SAMPLE_HEADER_SIZE) := Bytes.slice_size_of_le hb1 hb

theorem extractLoop_parity (data : Bytes) (names : List (Nat × List Nat)) :
    ∀ (rest : List Nat) (b0 i : Nat) (samples : List SampleInfo),
      PCMParser.extractLoop data names (b0 :: rest) i = some samples →
      List.Chain' (· ≤ ·) (b0 :: rest) →
      (∀ b ∈ b0 :: rest, b ≤ data.size) →
      (samples.map (fun s => s.data_size)).sum + 76 * samples.length + b0 ≤
        (b0 :: rest).getLastD 0 := by
  intro rest
  induction rest with
  | nil =>
    intro b0 i samples hx _ _
    have : samples = [] := by
      simp [PCMParser.extractLoop] at hx
      exact hx
    subst this
    simp
  | cons b1 rest2 ih =>
    intro b0 i samples hx hch hmem
    have h76 : PCMParser.SAMPLE_HEADER_SIZE = 76 := rfl
    have hch' : List.Chain' (· ≤ ·) (b1 :: rest2) := hch.tail
    have hle01 : b0 ≤ b1 := List.chain'_cons.mp hch |>.1
    have hmem' : ∀ b ∈ b1 :: rest2, b ≤ data.size := by
      intro b hb
      exact hmem b (List.mem_cons_of_mem _ hb)
    have hlast : (b0 :: b1 :: rest2).getLastD 0 = (b1 :: rest2).getLastD 0 := by
      simp [List.getLastD_cons]
    by_cases hskip : b1 ≤ b0 + PCMParser.SAMPLE_HEADER_SIZE ∨ data.size ≤ b0
    · rw [extractLoop_skip data names i b0 b1 rest2 hskip] at hx
      have hs := ih b1 (i + 1) samples hx hch' hmem'
      rw [hlast]
      omega
    · have hblock : b0 + PCMParser.SAMPLE_HEADER_SIZE < b1 := by omega
      have hb76 : b0 + PCMParser.SAMPLE_HEADER_SIZE ≤ data.size := by
        have := hmem' b1 (List.mem_cons_self _ _)
        omega
      rw [extractLoop_emit data names i b0 b1 rest2 hblock hb76] at hx
      cases hrec : PCMParser.extractLoop data names (b1 :: rest2) (i + 1) with
      | none => rw [hrec] at hx; exact Option.noConfusion hx
      | some l =>
        rw [hrec] at hx
        have hsam : _ :: l = samples := Option.some.inj hx
        subst hsam
        have hs := ih b1 (i + 1) l hrec hch' hmem'
        have hds := mkPCMSample_data_size_le data names i b0 b1
          (if data.get (b0 + 20) * 0x100 + data.get (b0 + 21) = 0 then
            PCMParser.default_sample_rate
          else data.get (b0 + 20) * 0x100 + data.get (b0 + 21))
          (hmem' b1 (List.mem_cons_self _ _)) (by omega)
        rw [hlast]
        simp only [List.map_cons, List.sum_cons, List.length_cons]
        omega

/-- C5 (amended): offset-table parity. For every container decoded through
the footer path whose recovered offset table is in increasing order, the sum
of the recovered sample payload lengths plus 76 bytes of header per sample
does not exceed the footer-begin position. The original claim asserted this
also for offset tables that are NOT in increasing order; the decoder clamps
each slice only against the buffer end, so out-of-order tables overcount, and
the sortedness hypothesis here is the amendment. -/
theorem C5_thm (data : Bytes) (kbeg : Nat) (offs : List Nat)
    (samples : List SampleInfo)
    (hlen : 256 ≤ data.size)
    (hkbeg : data.rfindTag tagKBEG = some kbeg)
    (hoff : PCMParser.parse_offset_table data kbeg (data.rfindTag tagKEND) = some offs)
    (hsorted : List.Chain' (· ≤ ·) offs)
    (hparse : PCMParser.parse data = some samples) :
    (samples.map (fun s => s.data_size)).sum + 76 * samples.length ≤ kbeg := by
  have hksz : kbeg + 4 ≤ data.size := by
    simpa [tagKBEG] using Bytes.rfindTag_bound hkbeg
  obtain ⟨names, hn'⟩ := Option.isSome_iff_exists.mp (parse_sample_names_isSome data)
  have hmemv := parse_offset_table_mem data kbeg (data.rfindTag tagKEND) offs hoff
  cases hoffs : offs with
  | nil =>
    have : PCMParser.parse data = some [] := by
      unfold PCMParser.parse
      rw [if_neg (by omega : ¬ data.size < 256), hkbeg]
      simp only [hn', hoff, hoffs]
      rfl
    rw [this] at hparse
    have : samples = [] := (Option.some.inj hparse).symm
    subst this
    simp
  | cons o0 orest =>
    have hx : PCMParser.extractLoop data names (offs ++ [kbeg]) 0 = some samples := by
      have : PCMParser.parse data =
          PCMParser.extractLoop data names (offs ++ [kbeg]) 0 := by
        unfold PCMParser.parse
        rw [if_neg (by omega : ¬ data.size < 256), hkbeg]
        simp only [hn', hoff]
        rw [if_neg (by simp [hoffs] : ¬ offs = [])]
      rw [← this, hparse]
    rw [hoffs] at hx hmemv hsorted
    have hchain : List.Chain' (· ≤ ·) ((o0 :: orest) ++ [kbeg]) := by
      rw [List.chain'_append]
      refine ⟨hsorted, List.chain'_singleton _, ?_⟩
      intro x hx' y hy'
      simp at hy'
      subst hy'
      have hxmem : x ∈ o0 :: orest := by
        rcases List.getLast?_eq_some_iff.mp hx' with ⟨l', hl'⟩
        rw [hl']
        exact List.mem_concat_self l' x
      exact le_of_lt (hmemv x hxmem).2
    have hmemb : ∀ b ∈ (o0 :: orest) ++ [kbeg], b ≤ data.size := by
      intro b hb
      rcases List.mem_append.mp hb with hb1 | hb2
      · exact le_trans (le_of_lt (hmemv b hb1).2) (by omega)
      · simp at hb2
        omega
    have hpar := extractLoop_parity data names (orest ++ [kbeg]) o0 0 samples hx
      hchain hmemb
    have hlastc : (o0 :: (orest ++ [kbeg])).getLastD 0 = kbeg := by
      show ((o0 :: orest) ++ [kbeg]).getLastD 0 = kbeg
      rw [List.getLastD_eq_getLast?, List.getLast?_concat]
      rfl
    rw [hlastc] at hpar
    omega

set_option maxRecDepth 40000

theorem C5_thm_witness :
    ((((PCMParser.parse pcmGood).getD []).map (fun s => s.data_size)).sum
      + 76 * ((PCMParser.parse pcmGood).getD []).length ≤ 0x300) :=
  C5_thm pcmGood 0x300 [0x100, 0x250] ((PCMParser.parse pcmGood).getD [])
    (by decide) (by decide) (by decide)
    (List.chain'_pair.mpr (by norm_num)) rfl

/-- C5 counterexample: an unsorted offset table breaks parity. In pcmUnsorted
the footer-begin marker sits at 0x200 and the recovered table is
[0x41, 0x190, 0x41, 0x190] (not increasing); the decoder emits 3 samples
whose payload sizes sum to 552, and 552 + 76 * 3 = 780 exceeds 0x200 = 512. -/
theorem C5_counterexample :
    pcmUnsorted.rfindTag tagKBEG = some 0x200 ∧
    PCMParser.parse_offset_table pcmUnsorted 0x200 (pcmUnsorted.rfindTag tagKEND)
      = some [0x41, 0x190, 0x41, 0x190] ∧
    (PCMParser.parse pcmUnsorted).map
      (fun ss => ((ss.map (fun s => s.data_size)).sum, ss.length)) = some (552, 3) ∧
    ¬ (552 + 76 * 3 ≤ 0x200) := by
  refine ⟨by decide, by decide, by decide, by decide⟩

theorem C2_thm_witness :
    ∃ s1 s2, PCMParser.parse pcmGood = some [s1, s2] ∧
      s1.sample_rate = 48000 ∧ s1.num_samples = (0x250 - 0x100 - 76) / 2 ∧
      s2.sample_rate = 48000 ∧ s2.num_samples = (0x300 - 0x250 - 76) / 2 :=
  C2_thm pcmGood 0x300 0x310 (by decide) (by decide) (by decide) (by decide)
    (by decide) (by decide) (by decide) (by decide)

/-- C2 counterexample: in pcmNoCount the two words after the footer-begin
marker are 0x100 and 0x250, both strictly between 0x40 and the marker
position 0x300, both header rate fields hold 0xBB80, yet the decoder returns
only 1 sample, not 2: the offset-table step unconditionally drops the first
word whenever the second is plausible, so the set of plausible table values
being exactly [0x100, 0x250] does not imply 2 decoded samples. -/
theorem C2_counterexample :
    pcmNoCount.rfindTag tagKBEG = some 0x300 ∧
    pcmNoCount.rfindTag tagKEND = some 0x30C ∧
    readBE32? pcmNoCount (0x300 + 4) = some 0x100 ∧
    readBE32? pcmNoCount (0x300 + 8) = some 0x250 ∧
    ((0x40 : Nat) < 0x100 ∧ (0x100 : Nat) < 0x300) ∧
    ((0x40 : Nat) < 0x250 ∧ (0x250 : Nat) < 0x300) ∧
    readBE16? pcmNoCount (0x100 + 20) = some 0xBB80 ∧
    readBE16? pcmNoCount (0x250 + 20) = some 0xBB80 ∧
    (PCMParser.parse pcmNoCount).map List.length = some 1 ∧ (1 : Nat) ≠ 2 := by
  refine ⟨by decide, by decide, by decide, by decide, by decide,
    by decide, by decide, by decide, by decide, by decide⟩

theorem C4_thm_witness :
    (((0x40 : Nat) < 0x250 ∧ (0x250 : Nat) < 0x300) →
      PCMParser.parse_offset_table pcmNoCount 0x300 (some 0x30C) =
        PCMParser.offsetScan pcmNoCount 0x300
          (PCMParser.effKend pcmNoCount 0x300 (some 0x30C)) (0x300 + 4 + 4)) ∧
    (¬ ((0x40 : Nat) < 0x250 ∧ (0x250 : Nat) < 0x300) →
      PCMParser.parse_offset_table pcmNoCount 0x300 (some 0x30C) =
        PCMParser.offsetScan pcmNoCount 0x300
          (PCMParser.effKend pcmNoCount 0x300 (some 0x30C)) (0x300 + 4)) ∧
    (((0x40 : Nat) < 0x100 ∧ (0x100 : Nat) < 0x300) →
      ((0x40 : Nat) < 0x250 ∧ (0x250 : Nat) < 0x300) →
      0x300 + 4 < PCMParser.effKend pcmNoCount 0x300 (some 0x30C) - 3 →
      ∀ l, PCMParser.offsetScan pcmNoCount 0x300
          (PCMParser.effKend pcmNoCount 0x300 (some 0x30C)) (0x300 + 4 + 4) = some l →
        PCMParser.offsetScan pcmNoCount 0x300
          (PCMParser.effKend pcmNoCount 0x300 (some 0x30C)) (0x300 + 4) = some (0x100 :: l)) :=
  C4_thm pcmNoCount 0x300 (some 0x30C) 0x100 0x250
    (by decide) (by decide) (by decide)

/-- C4 counterexample: in pcmNoCount both the first and the second table
word (0x100 and 0x250) lie strictly within the open interval from 0x40 to the
footer-begin position 0x300, yet the recovered offset table is [0x250]: the
first value is dropped, refuting the original claim that it is kept whenever
both values are plausible. -/
theorem C4_counterexample :
    readBE32? pcmNoCount (0x300 + 4) = some 0x100 ∧
    readBE32? pcmNoCount (0x300 + 8) = some 0x250 ∧
    ((0x40 : Nat) < 0x100 ∧ (0x100 : Nat) < 0x300) ∧
    ((0x40 : Nat) < 0x250 ∧ (0x250 : Nat) < 0x300) ∧
    PCMParser.parse_offset_table pcmNoCount 0x300 (pcmNoCount.rfindTag tagKEND)
      = some [0x250] ∧
    (0x100 : Nat) ∉ [(0x250 : Nat)] := by
  refine ⟨by decide, by decide, by decide, by decide, by decide, by decide⟩

/-- C6 (amended): for every input buffer of at least 32 bytes the keymap
decoder returns a Multisample, and whenever no (header-offset,
zone-record-size) hypothesis yields a valid non-empty zone list it carries
exactly the single full-range default zone with low_key 0, high_key 127,
low_velocity 0, high_velocity 127 and sample_index 0. The original claim
promised a Multisample for EVERY buffer; buffers shorter than 32 bytes get
None instead, which is the amendment. -/
theorem C6_thm (data : Bytes) (h : 32 ≤ data.size) :
    ∃ ms, KMPParser.parse data = some ms ∧
      (KMPParser.triedZones data = [] → ms.zones = [KMPParser.defaultZone]) := by
  unfold KMPParser.parse
  rw [if_neg (by omega : ¬ data.size < 32)]
  by_cases hs : KMPParser.SIGNATURES.contains (data.slice 0 4).toList
  · rw [if_pos hs]
    have hle : readLE32? data 4 = some (data.get 7 * 0x1000000 +
        data.get 6 * 0x10000 + data.get 5 * 0x100 + data.get 4) := by
      unfold readLE32?
      rw [if_pos (by omega : 4 + 4 ≤ data.size)]
    unfold KMPParser.parse_kmp1_format
    rw [hle]
    refine ⟨_, rfl, ?_⟩
    intro hz
    simp [hz]
  · rw [if_neg hs]
    exact ⟨_, rfl, fun _ => rfl⟩

theorem C6_thm_witness :
    ∃ ms, KMPParser.parse kmpZeros = some ms ∧
      (KMPParser.triedZones kmpZeros = [] → ms.zones = [KMPParser.defaultZone]) :=
  C6_thm kmpZeros (by decide)

theorem C6_counterexample :
    KMPParser.parse bytesEmpty = none ∧ bytesEmpty.size < 32 := ⟨rfl, by decide⟩

/-- C7: the invariant frame_count times channel_count times bytes per
sample at most the payload length FAILS on the KSF1 path: on the 80-byte
buffer ksfOverstated the header announces 1000 frames of 16-bit mono
audio (2000 bytes) while only 16 bytes of payload follow the probed data
offset; the decoder copies the header count unchecked, and the dispatch
condition of KSFParser.parse does select this branch for the buffer. -/
theorem C7_thm :
    (KSFParser.parse_ksf1_format ksfOverstated).map
      (fun s => (s.num_samples * s.channels * (s.bit_depth / 8),
                 (s.raw_data.map Bytes.size).getD 0)) = some (2000, 16) ∧
    KSFParser.selectsKSF1 ksfOverstated = true ∧
    ¬ ((2000 : Nat) ≤ 16) := by
  refine ⟨by decide, by decide, by decide⟩

/-- C1: the terminal-record invariant FAILS. For a one-sample bank the
preset headers advance the running bag index by the instrument count
plus one per preset while the bag builder emits only one record per
instrument plus a single final terminal, so the terminal preset header
points at bag index 2 although only 1 genuine preset-bag record
precedes the terminal; the instrument side diverges the same way.  (The
generator-index bounds inside pbag and ibag themselves are consistent
with pgen and igen.) -/
theorem C1_thm :
    ∃ st, SF2Writer.export_samples_to_sf2 [sfOneSample] = some st ∧
      (SF2Writer.build_phdr st.presets).map (fun r => r.pbag_idx) = [0, 2] ∧
      (SF2Writer.build_pbag st.presets).map (fun r => r.1) = [(0 : Nat), 2] ∧
      (SF2Writer.build_inst st.instruments).map (fun r => r.ibag_idx) = [0, 2] ∧
      (SF2Writer.build_ibag st.instruments).map (fun r => r.1) = [(0 : Nat), 4] ∧
      ¬ (((SF2Writer.build_phdr st.presets).getLastD
            { preset_num := 0, bank := 0, pbag_idx := 0 }).pbag_idx
          = (SF2Writer.build_pbag st.presets).length - 1) ∧
      ¬ (((SF2Writer.build_inst st.instruments).getLastD { ibag_idx := 0 }).ibag_idx
          = (SF2Writer.build_ibag st.instruments).length - 1) := by
  refine ⟨_, rfl, by decide, by decide, by decide, by decide, by decide, by decide⟩

/-- C3: the serializer refuses a zero-content bank and reports failure
exactly when no input sample carries a truthy raw payload; with at
least one payload-bearing sample it proceeds to build the bank. -/
theorem C3_thm (samples : List SampleInfo) :
    SF2Writer.export_samples_to_sf2 samples = none ↔
      ∀ s ∈ samples, SF2Writer.hasPayload s = false := by
  unfold SF2Writer.export_samples_to_sf2
  by_cases h : (samples.filter SF2Writer.hasPayload).isEmpty
  · simp only [h, if_pos]
    rw [List.isEmpty_iff, List.filter_eq_nil_iff] at h
    constructor
    · intro _ s hs
      exact Bool.not_eq_true _ ▸ (by simpa using h s hs)
    · intro _
      trivial
  · simp only [h, if_neg, Bool.false_eq_true]
    rw [List.isEmpty_iff, List.filter_eq_nil_iff] at h
    push_neg at h
    obtain ⟨s, hs, hp⟩ := h
    constructor
    · intro hn
      cases hn
    · intro hall
      exact absurd (hall s hs) (by simpa using hp)

theorem C3_thm_witness :
    (SF2Writer.export_samples_to_sf2 [] = none ↔
      ∀ s ∈ ([] : List SampleInfo), SF2Writer.hasPayload s = false) :=
  C3_thm []

/-- C8 (amended): the classifier is a pure function of its two
arguments, and the concrete classifications hold for KICK1, CLOPOTEI,
Do 1 banat (note C) and FLC4 (note C, octave 4).  The original claim
also put SNARE_Gby in the percussion role; the word-boundary anchors of
the snare pattern reject it because the underscore is a word character,
which is the amendment. -/
theorem C8_thm :
    (∀ (name : List Char) (ctx : List (List Char)),
       classify_sample name ctx = classify_sample name ctx) ∧
    classify_sample (String.toList ("KICK1")) [] = (SampleType.DRUMKIT, "", -1) ∧
    classify_sample (String.toList ("CLOPOTEI")) [] = (SampleType.DRUMKIT, "", -1) ∧
    (classify_sample (String.toList ("Do 1 banat")) []).1 = SampleType.MELODIC ∧
    (classify_sample (String.toList ("Do 1 banat")) []).2.1 = "C" ∧
    classify_sample (String.toList ("FLC4")) [] = (SampleType.MELODIC, "C", 4) := by
  refine ⟨fun _ _ => rfl, by decide, by decide, by decide, by decide, by decide⟩

/-- C8 counterexample: classify on the name SNARE_Gby with no siblings
yields the unknown role, not percussion: every snare drum pattern is
anchored on both sides by word boundaries, the underscore is a word
character, so SNARE fails to match inside SNARE_Gby, no melodic pattern
fires either, and with no context the classifier falls through. -/
theorem C8_counterexample :
    classify_sample (String.toList ("SNARE_Gby")) [] = (SampleType.UNKNOWN, "", -1) ∧
    SampleType.UNKNOWN ≠ SampleType.DRUMKIT := by
  refine ⟨by decide, by decide⟩

theorem getSampleLoop_find (samples : List SampleInfo) (zones : List KeyZone)
    (note velocity : Nat) :
    getSampleLoop samples zones note velocity =
      (zones.find? (fun z => zoneContains z note velocity &&
          decide (z.sample_index < samples.length))).bind
        (fun z => samples[z.sample_index]?) := by
  induction zones with
  | nil => rfl
  | cons z rest ih =>
    unfold getSampleLoop
    by_cases hc : zoneContains z note velocity
    · by_cases hi : z.sample_index < samples.length
      · rw [if_pos hc, dif_pos hi]
        rw [List.find?_cons_of_pos _ (by simp [hc, hi])]
        simp [List.getElem?_eq_getElem hi]
      · rw [if_pos hc, dif_neg hi, ih,
          List.find?_cons_of_neg _ (by simp [hc, hi])]
    · rw [if_neg hc, ih, List.find?_cons_of_neg _ (by simp [hc])]

/-- C10: note lookup returns a sample only through the first zone that
contains the query AND carries an in-range sample index (an out-of-range
containing zone is skipped, and with no resolving zone the result is
none) — stated as equality with a find-first formulation; and the
linking pass of the dispatcher appends resolved package samples in
zone-iteration order, shown on demoPkg: zones reference indices 2 then
0, yet the linked list holds the single sample of rate 3 at position 0,
and lookup through the second zone (index 0) returns that rate-3 sample
rather than package sample 0. -/
theorem C10_thm :
    (∀ (ms : Multisample) (note velocity : Nat),
      ms.get_sample_for_note note velocity =
        (ms.zones.find? (fun z => zoneContains z note velocity &&
            decide (z.sample_index < ms.samples.length))).bind
          (fun z => ms.samples[z.sample_index]?)) ∧
    demoPkg.multisamples.map (fun ms => ms.zones.map (fun z => z.sample_index))
      = [[2, 0]] ∧
    demoPkg.samples.map (fun s => s.sample_rate) = [1, 2, 3] ∧
    (SetParser.link_samples demoPkg).multisamples.map
      (fun ms => ms.samples.map (fun s => s.sample_rate)) = [[3]] ∧
    (((SetParser.link_samples demoPkg).multisamples.getD 0
        { name := SampleName.given }).get_sample_for_note 60 64).map
      (fun s => s.sample_rate) = some 3 := by
  refine ⟨fun ms note velocity => getSampleLoop_find ms.samples ms.zones note velocity,
    by decide, by decide, by decide, by decide⟩

theorem C9_thm_witness : ∃ samples, PCMParser.parse bytesEmpty = some samples :=
  C9_pcm_parse_total bytesEmpty
